import Mathlib

/-
A shallow embedding of the runtime-acquisition and self-bootstrap core of
the rye toolchain manager (src/rye/src/bootstrap.rs), together with proofs
of its specified properties.

The filesystem is modelled as an association list from paths (component
lists) to nodes.  External collaborators (the known-builds table, the
network, subprocess exit statuses, the link primitives) are oracles carried
in an `Env` record.  Every effectful function returns, next to its result,
the updated filesystem and the list of events it performed, in order, so
that temporal properties (what happened before what, what never happened)
can be stated directly.
-/

namespace Rye

/-- Decidable equality for results, used to evaluate the model on concrete
inputs. -/
instance exceptDecidableEq {ε α : Type} [DecidableEq ε] [DecidableEq α] :
    DecidableEq (Except ε α) := fun x y =>
  match x, y with
  | Except.ok a, Except.ok b =>
      if h : a = b then isTrue (by rw [h])
      else isFalse (by intro hc; cases hc; exact h rfl)
  | Except.ok _, Except.error _ => isFalse (by intro hc; cases hc)
  | Except.error _, Except.ok _ => isFalse (by intro hc; cases hc)
  | Except.error d, Except.error e =>
      if h : d = e then isTrue (by rw [h])
      else isFalse (by intro hc; cases hc; exact h rfl)

/-- Filesystem paths as lists of components. -/
abbrev FsPath := List String

/-- The compile-time platform (`cfg!` in the source). `macos` stands for any
unix that is not linux. -/
inductive Platform
  | linux
  | macos
  | windows
deriving DecidableEq

/-- Output verbosity, `CommandOutput` in the source. -/
inductive CommandOutput
  | Quiet
  | Normal
  | Verbose
deriving DecidableEq

/-- A filesystem node.  `binfile` is a regular file whose content cannot be
read as text (read_to_string fails on it); `symlink` and `hardlink` record
the link target so that shim resolution can be stated. -/
inductive FsNode
  | file (content : String)
  | binfile
  | dir
  | symlink (target : FsPath)
  | hardlink (target : FsPath)
deriving DecidableEq

/-- Association-list lookup of a node. -/
def findNode : List (FsPath × FsNode) → FsPath → Option FsNode
  | [], _ => none
  | (q, n) :: rest, p => if q = p then some n else findNode rest p

/-- Drop every entry whose path equals `p`. -/
def eraseNode : List (FsPath × FsNode) → FsPath → List (FsPath × FsNode)
  | [], _ => []
  | (q, n) :: rest, p => if q = p then eraseNode rest p else (q, n) :: eraseNode rest p

/-- Bool test that `p` is a prefix of `q` (so `q` lies at or under `p`). -/
def isUnder : FsPath → FsPath → Bool
  | [], _ => true
  | _ :: _, [] => false
  | a :: as, b :: bs => decide (a = b) && isUnder as bs

/-- Drop every entry lying at or under `p`. -/
def eraseTree : List (FsPath × FsNode) → FsPath → List (FsPath × FsNode)
  | [], _ => []
  | (q, n) :: rest, p => if isUnder p q then eraseTree rest p else (q, n) :: eraseTree rest p

/-- The filesystem: a finite map from paths to nodes, as an association
list (first binding wins). -/
structure FS where
  nodes : List (FsPath × FsNode)
deriving DecidableEq

def FS.lookup (fs : FS) (p : FsPath) : Option FsNode :=
  findNode fs.nodes p

/-- Path exists as a regular file (or a link, which `Path::is_file` follows). -/
def FS.isFile (fs : FS) (p : FsPath) : Bool :=
  match fs.lookup p with
  | some (FsNode.file _) => true
  | some FsNode.binfile => true
  | some (FsNode.symlink _) => true
  | some (FsNode.hardlink _) => true
  | _ => false

def FS.isDir (fs : FS) (p : FsPath) : Bool :=
  match fs.lookup p with
  | some FsNode.dir => true
  | _ => false

/-- `fs::read_to_string`: succeeds exactly on a readable text file. -/
def FS.readToString (fs : FS) (p : FsPath) : Option String :=
  match fs.lookup p with
  | some (FsNode.file c) => some c
  | _ => none

/-- Create or overwrite the node at `p`. -/
def FS.set (fs : FS) (p : FsPath) (n : FsNode) : FS :=
  ⟨(p, n) :: eraseNode fs.nodes p⟩

/-- `fs::remove_file`; removing a missing file changes nothing. -/
def FS.removeFile (fs : FS) (p : FsPath) : FS :=
  ⟨eraseNode fs.nodes p⟩

/-- `fs::remove_dir_all`: drop the node at `p` and everything under it. -/
def FS.removeTree (fs : FS) (p : FsPath) : FS :=
  ⟨eraseTree fs.nodes p⟩

/-- Create a directory at `p` when nothing is there yet. -/
def FS.mkDir (fs : FS) (p : FsPath) : FS :=
  match fs.lookup p with
  | some _ => fs
  | none => ⟨(p, FsNode.dir) :: fs.nodes⟩

/-- `fs::create_dir_all`: create the directory and all its parents. -/
def FS.createDirAll (fs : FS) (p : FsPath) : FS :=
  (List.range p.length).foldl (fun acc i => acc.mkDir (p.take (i + 1))) fs

/-- A shim at `p` resolves (directly or via hard link) to `target`. -/
def FS.resolvesTo (fs : FS) (p : FsPath) (target : FsPath) : Bool :=
  match fs.lookup p with
  | some (FsNode.symlink t) => decide (t = target)
  | some (FsNode.hardlink t) => decide (t = target)
  | _ => false

/-- Which link primitive a publication step used. -/
inductive LinkKind
  | soft
  | hard
deriving DecidableEq

/-- One observable action of a bootstrap run, in the order performed. -/
inductive Event
  | print (s : String)
  | proxySet (url : String)
  | netFetch (url : String)
  | createDir (p : FsPath)
  | writeFile (p : FsPath)
  | removeFile (p : FsPath)
  | removeTree (p : FsPath)
  | unpack (dest : FsPath)
  | link (kind : LinkKind) (dst : FsPath) (ok : Bool)
  | runVenv
  | runPipUpgrade
  | runPipInstall
  | runLdd
deriving DecidableEq

/-- Conditionally printed status line (`eprintln!` guarded by verbosity). -/
def echoIf (b : Bool) (s : String) : List Event :=
  if b then [Event.print s] else []

/-- `PythonVersionRequest` from the sources module: a partial version request. -/
structure PythonVersionRequest where
  kind : Option String
  major : Nat
  minor : Option Nat
  patch : Option Nat
  suffix : Option String
deriving DecidableEq

/-- `PythonVersion` from the sources module: a fully qualified version. -/
structure PythonVersion where
  name : String
  major : Nat
  minor : Nat
  patch : Nat
  suffix : Option String
deriving DecidableEq

/-- Canonical filesystem-safe string form of a version. -/
def PythonVersion.pathKey (v : PythonVersion) : String :=
  v.name ++ "@" ++ toString v.major ++ "." ++ toString v.minor ++ "." ++ toString v.patch

/-- The environment of external collaborators: configuration read at startup
plus oracles for everything outside this file (the known-builds table, the
network, subprocess exit statuses, the link primitives, the hash function). -/
structure Env where
  platform : Platform
  output : CommandOutput
  /-- `get_app_dir()`. -/
  appDir : FsPath
  /-- `env::current_exe()`. -/
  currentExe : FsPath
  /-- `hex::encode(Sha256::digest(content))` as an abstract digest function. -/
  sha256Hex : List Nat → String
  /-- `PythonVersion::try_from` on a request: succeeds when the request is
  already fully qualified. -/
  tryFrom : PythonVersionRequest → Option PythonVersion
  /-- `get_download_url`: the known-builds table for the startup OS and
  architecture, yielding a resolved version, url and optional sha256. -/
  downloads : PythonVersionRequest → Option (PythonVersion × String × Option String)
  /-- `Config::current().https_proxy_url()`. -/
  httpsProxy : Option String
  /-- The transport: status code and body for a url, or a transport error. -/
  net : String → Except String (Nat × List Nat)
  /-- The entries of an archive buffer, as destination-relative paths, or
  `none` for a malformed archive. -/
  archive : List Nat → Option (List (FsPath × FsNode))
  /-- Exit of the `python -mvenv` subprocess: `none` = spawn failure,
  `some b` = exited, successfully iff `b`. -/
  venvStatus : Option Bool
  /-- Exit of `pip install --upgrade pip`. -/
  pipUpgradeStatus : Option Bool
  /-- Exit of `pip install -r <requirements>`. -/
  pipInstallStatus : Option Bool
  /-- Missing shared libraries parsed from ldd output; `none` = ldd could
  not be invoked. -/
  lddMissing : Option (List String)
  /-- Whether `symlink_file target dst` succeeds. -/
  symlinkOk : FsPath → FsPath → Bool
  /-- Whether `fs::hard_link target dst` succeeds. -/
  hardlinkOk : FsPath → FsPath → Bool

/-- `SELF_VERSION`: the running internal tool version. -/
def SELF_VERSION : Nat := 3

/-- `SELF_PYTHON_VERSION`: the pinned internal interpreter request. -/
def SELF_PYTHON_VERSION : PythonVersionRequest :=
  { kind := some "cpython", major := 3, minor := some 10, patch := none, suffix := none }

/-- Rust `u64::from_str`: an optional leading plus sign, then one or more
decimal digits, nothing else, value below 2 to the 64. -/
def parseU64 (s : String) : Option Nat :=
  let chars := if s.data.head? = some '+' then s.data.tail else s.data
  if chars.isEmpty then none
  else if chars.all Char.isDigit then
    let v := chars.foldl (fun acc c => acc * 10 + (c.toNat - 48)) 0
    if v < 2 ^ 64 then some v else none
  else none

/-- The self-venv directory `<app_dir>/self`. -/
def selfVenvDir (env : Env) : FsPath :=
  env.appDir ++ ["self"]

/-- The persisted marker file path `<app_dir>/self/tool-version.txt`. -/
def markerPath (env : Env) : FsPath :=
  selfVenvDir env ++ ["tool-version.txt"]

/-- Process-wide mutable state: the filesystem and the `FORCED_TO_UPDATE`
atomic flag. -/
structure World where
  fs : FS
  forcedToUpdate : Bool
deriving DecidableEq

/-- `is_up_to_date` (bootstrap.rs lines 60-67): the marker file read and
parsed equal to `SELF_VERSION`, or the in-process forced-update flag.  The
once-per-process `Lazy` caching of the file read is abstracted away: the
model reads the current state directly. -/
def is_up_to_date (env : Env) (w : World) : Bool :=
  (match w.fs.readToString (markerPath env) with
   | some c => parseU64 c == some SELF_VERSION
   | none => false) || w.forcedToUpdate

/-- `check_hash` (bootstrap.rs lines 247-256): compare the hex digest of the
content with the expected hash; on mismatch fail with a message carrying
both, otherwise succeed silently. -/
def check_hash (sha256Hex : List Nat → String) (content : List Nat) (hash : String) :
    Except String Unit :=
  let digest := sha256Hex content
  if digest ≠ hash then
    Except.error ("hash mismatch: expected " ++ hash ++ " got " ++ digest)
  else
    Except.ok ()

/-- Rust `str::starts_with` unfolded to its character-sequence test. -/
def startsWithChars : List Char → List Char → Bool
  | [], _ => true
  | _ :: _, [] => false
  | p :: ps, c :: cs => decide (p = c) && startsWithChars ps cs

/-- The secure-scheme test `url.starts_with("https://")`. -/
def isSecureUrl (url : String) : Bool :=
  startsWithChars "https://".data url.data

/-- `download_url` (bootstrap.rs lines 321-380): refuse any non-https url
before touching the transport; otherwise apply the proxy, perform the
transfer and require a 2xx status. -/
def download_url (env : Env) (url : String) : Except String (List Nat) × List Event :=
  if ¬ isSecureUrl url then
    (Except.error "Refusing insecure download", [])
  else
    let proxyEv : List Event :=
      match env.httpsProxy with
      | some p => [Event.proxySet p]
      | none => []
    match env.net url with
    | Except.error e =>
        (Except.error ("download of " ++ url ++ " failed: " ++ e),
         proxyEv ++ [Event.netFetch url])
    | Except.ok (code, bytes) =>
        if 200 ≤ code ∧ code < 300 then
          (Except.ok bytes, proxyEv ++ [Event.netFetch url])
        else
          (Except.error ("Failed to download: " ++ toString code),
           proxyEv ++ [Event.netFetch url])

/-- Modelled from the spec: `get_canonical_py_path` (platform module, not in
the given sources): the per-version install directory keyed by the canonical
version string under the application directory. -/
def get_canonical_py_path (env : Env) (v : PythonVersion) : FsPath :=
  env.appDir ++ ["py", v.pathKey]

/-- Modelled from the spec: `get_toolchain_python_bin` (platform module, not
in the given sources): the expected interpreter binary at a known relative
path inside the install directory. -/
def get_toolchain_python_bin (env : Env) (v : PythonVersion) : FsPath :=
  get_canonical_py_path env v ++ ["install", "bin", "python3"]

/-- Modelled from the spec: `unpack_archive` (utils module, not in the given
sources): unpack the buffer into the destination directory, stripping one
leading path component; fails on a malformed archive. -/
def unpack_archive (env : Env) (buffer : List Nat) (dst : FsPath) (fs : FS) :
    Except String Unit × FS × List Event :=
  match env.archive buffer with
  | none => (Except.error "unpacking of downloaded tarball failed", fs, [Event.unpack dst])
  | some entries =>
      (Except.ok (),
       entries.foldl (fun acc e => acc.set (dst ++ e.1) e.2) fs,
       [Event.unpack dst])

/-- The tail of `fetch` after a successful download and hash policy
(bootstrap.rs lines 311-318): unpack into the install directory and report
success. -/
def fetchUnpack (env : Env) (version : PythonVersion) (buffer : List Nat) (fs : FS) :
    Except String PythonVersion × FS × List Event :=
  let res := unpack_archive env buffer (get_canonical_py_path env version) fs
  match res.1 with
  | Except.error e => (Except.error e, res.2.1, res.2.2)
  | Except.ok _ =>
      (Except.ok version, res.2.1,
       res.2.2 ++ echoIf (env.output != CommandOutput.Quiet)
         ("success: Downloaded " ++ version.pathKey))

/-- The body of `fetch` after the destination directory has been created
(bootstrap.rs lines 293-318): announce and perform the download, enforce the
hash policy, then unpack. -/
def fetchAfterCreate (env : Env) (version : PythonVersion) (url : String)
    (sha256 : Option String) (fs : FS) :
    Except String PythonVersion × FS × List Event :=
  let ev0 := echoIf (env.output == CommandOutput.Verbose) ("download url: " ++ url)
      ++ echoIf (env.output != CommandOutput.Quiet) ("Downloading " ++ version.pathKey)
  let dl := download_url env url
  match dl.1 with
  | Except.error e => (Except.error e, fs, ev0 ++ dl.2)
  | Except.ok buffer =>
    match sha256 with
    | some sha =>
        let ev1 := echoIf (env.output != CommandOutput.Quiet) "Checking hash"
        match check_hash env.sha256Hex buffer sha with
        | Except.error e =>
            (Except.error ("hash check of " ++ url ++ " failed: " ++ e), fs,
             ev0 ++ dl.2 ++ ev1)
        | Except.ok _ =>
            let res := fetchUnpack env version buffer fs
            (res.1, res.2.1, ev0 ++ dl.2 ++ ev1 ++ res.2.2)
    | none =>
        let ev1 := echoIf (env.output != CommandOutput.Quiet)
          "hash check skipped (no hash available)"
        let res := fetchUnpack env version buffer fs
        (res.1, res.2.1, ev0 ++ dl.2 ++ ev1 ++ res.2.2)

/-- The download path of `fetch` once the cache checks have failed
(bootstrap.rs lines 290-318): create the destination directory and its
parents, then download, verify and unpack. -/
def fetchDownloadUnpack (env : Env) (version : PythonVersion) (url : String)
    (sha256 : Option String) (fs : FS) :
    Except String PythonVersion × FS × List Event :=
  let target_dir := get_canonical_py_path env version
  let res := fetchAfterCreate env version url sha256 (fs.createDirAll target_dir)
  (res.1, res.2.1, Event.createDir target_dir :: res.2.2)

/-- The part of `fetch` from version resolution on (bootstrap.rs lines
273-318): resolve the request against the known-builds table, skip when the
install directory and its binary both exist, otherwise download. -/
def fetchResolve (env : Env) (req : PythonVersionRequest) (fs : FS) :
    Except String PythonVersion × FS × List Event :=
  match env.downloads req with
  | none => (Except.error "unknown version", fs, [])
  | some (version, url, sha256) =>
    let target_dir := get_canonical_py_path env version
    let target_py_bin := get_toolchain_python_bin env version
    let ev0 := echoIf (env.output == CommandOutput.Verbose)
      ("target dir: " ++ String.intercalate "/" target_dir)
    if fs.isDir target_dir && fs.isFile target_py_bin then
      (Except.ok version, fs,
       ev0 ++ echoIf (env.output == CommandOutput.Verbose)
         "Python version already downloaded. Skipping.")
    else
      let res := fetchDownloadUnpack env version url sha256 fs
      (res.1, res.2.1, ev0 ++ res.2.2)

/-- `fetch` (bootstrap.rs lines 259-319): fetch a version if missing.  When
the request is already fully qualified and its binary is present, skip
immediately; otherwise resolve and download. -/
def fetch (env : Env) (req : PythonVersionRequest) (fs : FS) :
    Except String PythonVersion × FS × List Event :=
  match env.tryFrom req with
  | some version =>
      if fs.isFile (get_toolchain_python_bin env version) then
        (Except.ok version, fs,
         echoIf (env.output == CommandOutput.Verbose)
           "Python version already downloaded. Skipping.")
      else
        fetchResolve env req fs
  | none => fetchResolve env req fs

/-- `validate_shared_libraries` (bootstrap.rs lines 382-416, linux only):
invoke ldd on the installed binary and fail when any dependency is missing.
The line parsing of the ldd output is folded into the `lddMissing` oracle. -/
def validate_shared_libraries (env : Env) : Except String Unit × List Event :=
  match env.lddMissing with
  | none => (Except.error "unable to invoke ldd on downloaded python binary", [Event.runLdd])
  | some missing =>
      if missing.isEmpty then
        (Except.ok (), [Event.runLdd])
      else
        (Except.error "Python installation is unable to run on this machine due to missing libraries.",
         [Event.runLdd] ++ missing.map (fun l => Event.print ("  - " ++ l)))

/-- One shim publication on unix (the repeated per-name block of
`update_core_shims`, bootstrap.rs lines 204-211): remove the old file, then
on linux try a hard link first falling back to a symlink, and on other unix
platforms create only a symlink (the hard link is short-circuited away). -/
def publishShimUnix (env : Env) (useSoftlinks : Bool) (exe shimPath : FsPath)
    (ctxMsg : String) (fs : FS) : Except String Unit × FS × List Event :=
  let fs1 := fs.removeFile shimPath
  let ev := [Event.removeFile shimPath]
  if useSoftlinks then
    if env.symlinkOk exe shimPath then
      (Except.ok (), fs1.set shimPath (FsNode.symlink exe),
       ev ++ [Event.link LinkKind.soft shimPath true])
    else
      (Except.error ctxMsg, fs1, ev ++ [Event.link LinkKind.soft shimPath false])
  else
    if env.hardlinkOk exe shimPath then
      (Except.ok (), fs1.set shimPath (FsNode.hardlink exe),
       ev ++ [Event.link LinkKind.hard shimPath true])
    else if env.symlinkOk exe shimPath then
      (Except.ok (), fs1.set shimPath (FsNode.symlink exe),
       ev ++ [Event.link LinkKind.hard shimPath false, Event.link LinkKind.soft shimPath true])
    else
      (Except.error ctxMsg, fs1,
       ev ++ [Event.link LinkKind.hard shimPath false, Event.link LinkKind.soft shimPath false])

/-- One shim publication on windows (the repeated per-name block of
`update_core_shims`, bootstrap.rs lines 218-227): remove the old file, try a
symlink, fall back to a hard link. -/
def publishShimWindows (env : Env) (exe shimPath : FsPath) (ctxMsg : String) (fs : FS) :
    Except String Unit × FS × List Event :=
  let fs1 := fs.removeFile shimPath
  let ev := [Event.removeFile shimPath]
  if env.symlinkOk exe shimPath then
    (Except.ok (), fs1.set shimPath (FsNode.symlink exe),
     ev ++ [Event.link LinkKind.soft shimPath true])
  else if env.hardlinkOk exe shimPath then
    (Except.ok (), fs1.set shimPath (FsNode.hardlink exe),
     ev ++ [Event.link LinkKind.soft shimPath false, Event.link LinkKind.hard shimPath true])
  else
    (Except.error ctxMsg, fs1,
     ev ++ [Event.link LinkKind.soft shimPath false, Event.link LinkKind.hard shimPath false])

/-- The two entrypoint names published on each platform. -/
def coreShimNames (p : Platform) : List String :=
  match p with
  | Platform.windows => ["python.exe", "pythonw.exe"]
  | _ => ["python", "python3"]

/-- The two published shim paths of a platform, in publication order. -/
def shimPaths (p : Platform) (shims : FsPath) : FsPath × FsPath :=
  match p with
  | Platform.windows => (shims ++ ["python.exe"], shims ++ ["pythonw.exe"])
  | _ => (shims ++ ["python"], shims ++ ["python3"])

/-- `update_core_shims` (bootstrap.rs lines 200-231): publish the two core
entrypoints with the per-platform link strategy. -/
def update_core_shims (env : Env) (shims exe : FsPath) (fs : FS) :
    Except String Unit × FS × List Event :=
  match env.platform with
  | Platform.windows =>
      let r1 := publishShimWindows env exe (shims ++ ["python.exe"])
        "tried to symlink python shim" fs
      (match r1.1 with
       | Except.error e => (Except.error e, r1.2.1, r1.2.2)
       | Except.ok _ =>
           let r2 := publishShimWindows env exe (shims ++ ["pythonw.exe"])
             "tried to symlink pythonw shim" r1.2.1
           (r2.1, r2.2.1, r1.2.2 ++ r2.2.2))
  | p =>
      let useSoftlinks := p != Platform.linux
      let r1 := publishShimUnix env useSoftlinks exe (shims ++ ["python"])
        "tried to symlink python shim" fs
      (match r1.1 with
       | Except.error e => (Except.error e, r1.2.1, r1.2.2)
       | Except.ok _ =>
           let r2 := publishShimUnix env useSoftlinks exe (shims ++ ["python3"])
             "tried to symlink python3 shim" r1.2.1
           (r2.1, r2.2.1, r1.2.2 ++ r2.2.2))

/-- `do_update` (bootstrap.rs lines 138-198): upgrade pip, install the
pinned internal requirements, ensure the shims directory exists, pick the
managing executable (the rye shim when present, the current executable
otherwise) and publish the core shims.  The temporary requirements file is
written outside the app directory and deleted on drop, so it is abstracted
away; the pip subprocess effects inside the venv are tracked as events. -/
def do_update (env : Env) (fs : FS) : Except String Unit × FS × List Event :=
  let ev0 := echoIf (env.output != CommandOutput.Quiet) "Upgrading pip"
      ++ [Event.runPipUpgrade]
  match env.pipUpgradeStatus with
  | none => (Except.error "unable to self-upgrade pip", fs, ev0)
  | some false => (Except.error "failed to initialize virtualenv (upgrade pip)", fs, ev0)
  | some true =>
    let ev1 := echoIf (env.output != CommandOutput.Quiet) "Installing internal dependencies"
        ++ [Event.runPipInstall]
    match env.pipInstallStatus with
    | none => (Except.error "unable to install self-dependencies", fs, ev0 ++ ev1)
    | some false =>
        (Except.error "failed to initialize virtualenv (install dependencies)", fs, ev0 ++ ev1)
    | some true =>
      let shims := env.appDir ++ ["shims"]
      let fs1 := if fs.isDir shims then fs else fs.createDirAll shims
      let ev2 := if fs.isDir shims then ([] : List Event) else [Event.createDir shims]
      let ryeShim := shims ++ [if env.platform == Platform.windows then "rye.exe" else "rye"]
      let exe := if fs1.isFile ryeShim then ryeShim else env.currentExe
      let res := update_core_shims env shims exe fs1
      (res.1, res.2.1, ev0 ++ ev1 ++ ev2 ++ res.2.2)

/-- The body of `ensure_self_venv` once the gate found the environment stale
(bootstrap.rs lines 90-135): fetch the pinned interpreter, validate it on
linux, create the virtualenv, run `do_update`, and only then write the
marker and set the forced-update flag.  The venv subprocess effect is
modelled as creating the venv directory; the directory removals of the
stale path are modelled as always succeeding. -/
def ensure_self_venv_inner (env : Env) (w : World) :
    Except String FsPath × World × List Event :=
  let venv_dir := selfVenvDir env
  let ev0 := echoIf (env.output != CommandOutput.Quiet) "Bootstrapping rye internals"
  let rf := fetch env SELF_PYTHON_VERSION w.fs
  match rf.1 with
  | Except.error e =>
      (Except.error ("failed to fetch internal cpython toolchain: " ++ e),
       { w with fs := rf.2.1 }, ev0 ++ rf.2.2)
  | Except.ok _ =>
    let rv := if env.platform == Platform.linux then validate_shared_libraries env
              else (Except.ok (), [])
    match rv.1 with
    | Except.error e => (Except.error e, { w with fs := rf.2.1 }, ev0 ++ rf.2.2 ++ rv.2)
    | Except.ok _ =>
      let ev1 := [Event.runVenv]
      match env.venvStatus with
      | none =>
          (Except.error "unable to create self venv", { w with fs := rf.2.1 },
           ev0 ++ rf.2.2 ++ rv.2 ++ ev1)
      | some false =>
          (Except.error "failed to initialize virtualenv", { w with fs := rf.2.1 },
           ev0 ++ rf.2.2 ++ rv.2 ++ ev1)
      | some true =>
        let fs2 := rf.2.1.createDirAll venv_dir
        let ru := do_update env fs2
        match ru.1 with
        | Except.error e =>
            (Except.error e, { w with fs := ru.2.1 }, ev0 ++ rf.2.2 ++ rv.2 ++ ev1 ++ ru.2.2)
        | Except.ok _ =>
            (Except.ok venv_dir,
             { fs := ru.2.1.set (venv_dir ++ ["tool-version.txt"])
                 (FsNode.file (toString SELF_VERSION)),
               forcedToUpdate := true },
             ev0 ++ rf.2.2 ++ rv.2 ++ ev1 ++ ru.2.2
               ++ [Event.writeFile (venv_dir ++ ["tool-version.txt"])])

/-- `ensure_self_venv` (bootstrap.rs lines 70-136): return immediately when
the self venv exists and the gate is current; otherwise remove the old
environment (and the pip-tools directory) and rebuild from scratch. -/
def ensure_self_venv (env : Env) (w : World) :
    Except String FsPath × World × List Event :=
  let venv_dir := selfVenvDir env
  let pip_tools_dir := env.appDir ++ ["pip-tools"]
  if w.fs.isDir venv_dir then
    if is_up_to_date env w then
      (Except.ok venv_dir, w, [])
    else
      let ev0 := echoIf (env.output != CommandOutput.Quiet)
        "detected outdated rye internals. Refreshing"
      let fs1 := w.fs.removeTree venv_dir
      let ev1 := [Event.removeTree venv_dir]
      let fs2 := if fs1.isDir pip_tools_dir then fs1.removeTree pip_tools_dir else fs1
      let ev2 := if fs1.isDir pip_tools_dir then [Event.removeTree pip_tools_dir]
                 else ([] : List Event)
      let res := ensure_self_venv_inner env { w with fs := fs2 }
      (res.1, res.2.1, ev0 ++ ev1 ++ ev2 ++ res.2.2)
  else
    ensure_self_venv_inner env w

/-- An event that is only a status line, not an action. -/
def Event.isPrint : Event → Bool
  | Event.print _ => true
  | _ => false

/-- An event that persists a file write. -/
def Event.isWrite : Event → Bool
  | Event.writeFile _ => true
  | _ => false

/-- A run whose event trace consists of status lines only: nothing was
downloaded, created, unpacked or linked. -/
def skipOnly (evs : List Event) : Bool :=
  evs.all Event.isPrint

/-- The trace block of one shim publication: the unconditional removal of
the old file first, then only link attempts on that same path. -/
def shimBlock (p : FsPath) (t : List Event) : Prop :=
  ∃ rest, t = Event.removeFile p :: rest ∧ ∀ e ∈ rest, ∃ k b, e = Event.link k p b

/-
Concrete fixtures used to evaluate the model: a fully working environment
and variations of it with one broken collaborator each.
-/

def emptyFS : FS := ⟨[]⟩

def appDir0 : FsPath := ["app"]

def v0 : PythonVersion :=
  { name := "cpython", major := 3, minor := 10, patch := 12, suffix := none }

def req0 : PythonVersionRequest := SELF_PYTHON_VERSION

def url0 : String := "https://example.invalid/cpython.tar.gz"

def goodBytes : List Nat := [1, 2, 3]

def binRel : FsPath := ["install", "bin", "python3"]

/-- A fully working environment: the table resolves `req0` to `v0`, the
network serves the archive whose digest matches, every subprocess exits
successfully, both link primitives work. -/
def baseEnv : Env :=
  { platform := Platform.linux
    output := CommandOutput.Normal
    appDir := appDir0
    currentExe := ["usr", "bin", "rye"]
    sha256Hex := fun b => if b = goodBytes then "digest-good" else "digest-bad"
    tryFrom := fun _ => none
    downloads := fun r => if r = req0 then some (v0, url0, some "digest-good") else none
    httpsProxy := none
    net := fun u => if u = url0 then Except.ok (200, goodBytes) else Except.error "no route"
    archive := fun b => if b = goodBytes then some [(binRel, FsNode.binfile)] else none
    venvStatus := some true
    pipUpgradeStatus := some true
    pipInstallStatus := some true
    lddMissing := some []
    symlinkOk := fun _ _ => true
    hardlinkOk := fun _ _ => true }

def w0 : World := { fs := emptyFS, forcedToUpdate := false }

/-- The network serves bytes whose digest does not match the expected one. -/
def envBadDigest : Env := { baseEnv with net := fun _ => Except.ok (200, [9, 9]) }

/-- The transport fails. -/
def envNetFail : Env := { baseEnv with net := fun _ => Except.error "timeout" }

/-- Quiet output and a download descriptor with no expected digest. -/
def envQuietNoDigest : Env :=
  { baseEnv with
    output := CommandOutput.Quiet
    downloads := fun r => if r = req0 then some (v0, url0, none) else none }

/-- Normal output and a download descriptor with no expected digest. -/
def envNoDigestNormal : Env :=
  { baseEnv with downloads := fun r => if r = req0 then some (v0, url0, none) else none }

/-- Non-linux unix where symlink creation fails but hard links would work. -/
def envMacNoSym : Env :=
  { baseEnv with platform := Platform.macos, symlinkOk := fun _ _ => false }

/-- The pip dependency install step fails. -/
def envPipFail : Env := { baseEnv with pipInstallStatus := some false }

/-- Windows where symlink creation fails but hard links work. -/
def envWinNoSym : Env :=
  { baseEnv with platform := Platform.windows, symlinkOk := fun _ _ => false }

/-- A world whose self venv is already built and whose marker is current. -/
def wReady : World :=
  { fs := ⟨[(appDir0 ++ ["self"], FsNode.dir),
            (appDir0 ++ ["self", "tool-version.txt"], FsNode.file "3")]⟩
    forcedToUpdate := false }

/-- A filesystem on which `v0` is completely installed. -/
def fsInstalled : FS :=
  ⟨[(appDir0 ++ ["py", v0.pathKey], FsNode.dir),
    (appDir0 ++ ["py", v0.pathKey] ++ binRel, FsNode.binfile)]⟩

/-
Lemma kit for the filesystem model.
-/

theorem findNode_eraseNode (l : List (FsPath × FsNode)) (p q : FsPath) :
    findNode (eraseNode l p) q = if q = p then none else findNode l q := by
  induction l with
  | nil => simp [eraseNode, findNode]
  | cons hd tl ih =>
    obtain ⟨a, b⟩ := hd
    by_cases h1 : a = p
    · subst h1
      by_cases h2 : q = a
      · subst h2
        simp [eraseNode, findNode, ih]
      · simp [eraseNode, findNode, ih, h2, Ne.symm h2]
    · by_cases h2 : a = q
      · subst h2
        simp [eraseNode, findNode, h1, ih]
      · simp [eraseNode, findNode, h1, h2, ih]

theorem findNode_eraseTree (l : List (FsPath × FsNode)) (p q : FsPath) :
    findNode (eraseTree l p) q =
      if isUnder p q then none else findNode l q := by
  induction l with
  | nil => simp [eraseTree, findNode]
  | cons hd tl ih =>
    obtain ⟨a, b⟩ := hd
    by_cases h1 : isUnder p a
    · by_cases h2 : a = q
      · subst h2
        simp [eraseTree, findNode, h1, ih]
      · simp [eraseTree, findNode, h1, h2, ih]
    · by_cases h2 : a = q
      · subst h2
        simp [eraseTree, findNode, h1, ih]
      · simp [eraseTree, findNode, h1, h2, ih]

theorem FS.lookup_set (fs : FS) (p : FsPath) (n : FsNode) (q : FsPath) :
    (fs.set p n).lookup q = if q = p then some n else fs.lookup q := by
  by_cases h : q = p
  · subst h
    simp [FS.set, FS.lookup, findNode, findNode_eraseNode]
  · simp [FS.set, FS.lookup, findNode, findNode_eraseNode, h, Ne.symm h]

theorem FS.lookup_removeFile (fs : FS) (p q : FsPath) :
    (fs.removeFile p).lookup q = if q = p then none else fs.lookup q := by
  simp [FS.removeFile, FS.lookup, findNode_eraseNode]

theorem FS.lookup_removeTree (fs : FS) (p q : FsPath) :
    (fs.removeTree p).lookup q = if isUnder p q then none else fs.lookup q := by
  simp [FS.removeTree, FS.lookup, findNode_eraseTree]

theorem FS.lookup_mkDir (fs : FS) (p q : FsPath) :
    (fs.mkDir p).lookup q =
      if q = p then some ((fs.lookup p).getD FsNode.dir) else fs.lookup q := by
  unfold FS.mkDir
  cases hl : fs.lookup p with
  | some n =>
    by_cases h : q = p
    · subst h
      simp [hl]
    · simp [h]
  | none =>
    by_cases h : q = p
    · subst h
      simp [FS.lookup, findNode, hl]
    · simp [FS.lookup, findNode, h, Ne.symm h]

theorem FS.lookup_mkDir_ne (fs : FS) (p q : FsPath) (h : q ≠ p) :
    (fs.mkDir p).lookup q = fs.lookup q := by
  rw [FS.lookup_mkDir, if_neg h]

theorem FS.isFile_mkDir (fs : FS) (p q : FsPath) :
    (fs.mkDir p).isFile q = fs.isFile q := by
  unfold FS.isFile
  rw [FS.lookup_mkDir]
  by_cases h : q = p
  · subst h
    rw [if_pos rfl]
    cases hl : fs.lookup q with
    | some n => cases n <;> simp
    | none => simp
  · rw [if_neg h]

theorem FS.readToString_mkDir (fs : FS) (p q : FsPath) :
    (fs.mkDir p).readToString q = fs.readToString q := by
  unfold FS.readToString
  rw [FS.lookup_mkDir]
  by_cases h : q = p
  · subst h
    rw [if_pos rfl]
    cases hl : fs.lookup q with
    | some n => cases n <;> simp
    | none => simp
  · rw [if_neg h]

theorem FS.isFile_createDirAll (fs : FS) (p q : FsPath) :
    (fs.createDirAll p).isFile q = fs.isFile q := by
  unfold FS.createDirAll
  generalize List.range p.length = l
  induction l generalizing fs with
  | nil => rfl
  | cons hd tl ih => rw [List.foldl_cons, ih, FS.isFile_mkDir]

theorem FS.readToString_createDirAll (fs : FS) (p q : FsPath) :
    (fs.createDirAll p).readToString q = fs.readToString q := by
  unfold FS.createDirAll
  generalize List.range p.length = l
  induction l generalizing fs with
  | nil => rfl
  | cons hd tl ih => rw [List.foldl_cons, ih, FS.readToString_mkDir]

theorem FS.readToString_set_ne (fs : FS) (p : FsPath) (n : FsNode) (q : FsPath)
    (h : q ≠ p) : (fs.set p n).readToString q = fs.readToString q := by
  unfold FS.readToString
  rw [FS.lookup_set, if_neg h]

theorem FS.isDir_set_ne (fs : FS) (p : FsPath) (n : FsNode) (q : FsPath)
    (h : q ≠ p) : (fs.set p n).isDir q = fs.isDir q := by
  unfold FS.isDir
  rw [FS.lookup_set, if_neg h]

theorem isUnder_append (a l1 l2 : FsPath) :
    isUnder (a ++ l1) (a ++ l2) = isUnder l1 l2 := by
  induction a with
  | nil => rfl
  | cons hd tl ih => simp [isUnder, ih]

theorem FS.readToString_foldl_set (entries : List (FsPath × FsNode)) (dst q : FsPath)
    (h : ∀ e ∈ entries, dst ++ e.1 ≠ q) (fs : FS) :
    (entries.foldl (fun acc e => acc.set (dst ++ e.1) e.2) fs).readToString q =
      fs.readToString q := by
  induction entries generalizing fs with
  | nil => rfl
  | cons hd tl ih =>
    rw [List.foldl_cons, ih (fun e he => h e (List.mem_cons_of_mem _ he)),
      FS.readToString_set_ne]
    exact Ne.symm (h hd (List.mem_cons_self _ _))

theorem FS.isDir_foldl_set (entries : List (FsPath × FsNode)) (dst q : FsPath)
    (h : ∀ e ∈ entries, dst ++ e.1 ≠ q) (fs : FS) :
    (entries.foldl (fun acc e => acc.set (dst ++ e.1) e.2) fs).isDir q =
      fs.isDir q := by
  induction entries generalizing fs with
  | nil => rfl
  | cons hd tl ih =>
    rw [List.foldl_cons, ih (fun e he => h e (List.mem_cons_of_mem _ he)),
      FS.isDir_set_ne]
    exact Ne.symm (h hd (List.mem_cons_self _ _))

theorem lookup_foldl_mkDir_short (p : FsPath) (l : List Nat) (fs : FS)
    (h : ∀ i ∈ l, i + 1 < p.length) :
    (l.foldl (fun acc i => acc.mkDir (p.take (i + 1))) fs).lookup p = fs.lookup p := by
  induction l generalizing fs with
  | nil => rfl
  | cons hd tl ih =>
    rw [List.foldl_cons, ih _ (fun i hi => h i (List.mem_cons_of_mem _ hi))]
    apply FS.lookup_mkDir_ne
    intro hc
    have hlen := congrArg List.length hc
    rw [List.length_take] at hlen
    have h1 := h hd (List.mem_cons_self _ _)
    omega

theorem FS.isDir_createDirAll_self (fs : FS) (p : FsPath) (hp : p ≠ [])
    (h : fs.lookup p = none ∨ fs.lookup p = some FsNode.dir) :
    (fs.createDirAll p).isDir p = true := by
  unfold FS.createDirAll
  obtain ⟨n, hn⟩ : ∃ n, p.length = n + 1 := by
    cases hp2 : p with
    | nil => exact absurd hp2 hp
    | cons c cs => exact ⟨cs.length, by simp⟩
  rw [hn, List.range_succ, List.foldl_append]
  have htake : p.take (n + 1) = p := by
    rw [← hn]
    exact List.take_length p
  have hl : ((List.range n).foldl (fun acc i => acc.mkDir (p.take (i + 1))) fs).lookup p =
      fs.lookup p :=
    lookup_foldl_mkDir_short p (List.range n) fs
      (fun i hi => by have := List.mem_range.mp hi; omega)
  have hfin : (((List.range n).foldl (fun acc i => acc.mkDir (p.take (i + 1))) fs).mkDir
      (p.take (n + 1))).lookup p = some FsNode.dir := by
    rw [htake, FS.lookup_mkDir, if_pos rfl, hl]
    rcases h with h | h <;> rw [h] <;> rfl
  simp only [List.foldl_cons, List.foldl_nil]
  unfold FS.isDir
  rw [hfin]

theorem append_ne_of_head_ne {x y : String} (a : FsPath) (l1 l2 : FsPath)
    (h : x ≠ y) : a ++ x :: l1 ≠ a ++ y :: l2 := by
  intro hc
  have h2 := List.append_cancel_left hc
  simp at h2
  exact h h2.1

theorem mem_echoIf {e : Event} {b : Bool} {s : String} (h : e ∈ echoIf b s) :
    e = Event.print s := by
  unfold echoIf at h
  split at h
  · simpa using h
  · simp at h

theorem append_head_ne (a s b : String) (ha : a.data ≠ [])
    (h : a.data.head? ≠ b.data.head?) : a ++ s ≠ b := by
  intro hc
  apply h
  rw [← hc, String.data_append]
  cases hd : a.data with
  | nil => exact absurd hd ha
  | cons c cs => simp [hd]

theorem skipOnly_echoIf (b : Bool) (s : String) : skipOnly (echoIf b s) = true := by
  unfold skipOnly echoIf
  split <;> simp [Event.isPrint]

theorem skipOnly_append (l1 l2 : List Event) :
    skipOnly (l1 ++ l2) = (skipOnly l1 && skipOnly l2) := by
  unfold skipOnly
  exact List.all_append

theorem skipOnly_cons_createDir (p : FsPath) (l : List Event) :
    skipOnly (Event.createDir p :: l) = false := by
  unfold skipOnly
  simp [Event.isPrint]

theorem fetchDownloadUnpack_trace (env : Env) (version : PythonVersion)
    (url : String) (sha : Option String) (fs : FS) :
    (fetchDownloadUnpack env version url sha fs).2.2 =
      Event.createDir (get_canonical_py_path env version) ::
        (fetchAfterCreate env version url sha
          (fs.createDirAll (get_canonical_py_path env version))).2.2 := rfl

theorem append_cons_ne_self (td : FsPath) (a : String) (l : FsPath) :
    td ++ a :: l ≠ td := by
  intro h
  have h2 := congrArg List.length h
  simp [List.length_append] at h2

theorem fetch_eq_resolve_of_miss (env : Env) (req : PythonVersionRequest) (fs : FS)
    (version : PythonVersion)
    (htf : ∀ v, env.tryFrom req = some v → v = version)
    (hmiss : fs.isFile (get_toolchain_python_bin env version) = false) :
    fetch env req fs = fetchResolve env req fs := by
  unfold fetch
  cases htv : env.tryFrom req with
  | some v =>
    have hv := htf v htv
    subst hv
    dsimp only
    rw [if_neg (by simp [hmiss])]
  | none => rfl

theorem fetchResolve_miss (env : Env) (req : PythonVersionRequest) (fs : FS)
    (version : PythonVersion) (url : String) (sha : Option String)
    (hres : env.downloads req = some (version, url, sha))
    (hmiss : fs.isFile (get_toolchain_python_bin env version) = false) :
    fetchResolve env req fs =
      ((fetchDownloadUnpack env version url sha fs).1,
       (fetchDownloadUnpack env version url sha fs).2.1,
       echoIf (env.output == CommandOutput.Verbose)
           ("target dir: " ++ String.intercalate "/" (get_canonical_py_path env version))
         ++ (fetchDownloadUnpack env version url sha fs).2.2) := by
  unfold fetchResolve
  rw [hres]
  dsimp only
  rw [if_neg (by simp [hmiss])]

theorem fetchAfterCreate_isDir (env : Env) (version : PythonVersion) (url : String)
    (sha : Option String) (fs : FS)
    (harc : ∀ b entries, env.archive b = some entries → ∀ e ∈ entries, e.1 ≠ []) :
    (fetchAfterCreate env version url sha fs).2.1.isDir
        (get_canonical_py_path env version) =
      fs.isDir (get_canonical_py_path env version) := by
  have hunp : ∀ buffer, (fetchUnpack env version buffer fs).2.1.isDir
      (get_canonical_py_path env version) =
      fs.isDir (get_canonical_py_path env version) := by
    intro buffer
    unfold fetchUnpack unpack_archive
    cases harch2 : env.archive buffer with
    | none => rfl
    | some entries =>
      dsimp only
      have hne : ∀ e2 ∈ entries,
          get_canonical_py_path env version ++ e2.1 ≠
            get_canonical_py_path env version := by
        intro e2 he2
        obtain ⟨p2, n2⟩ := e2
        have hne2 : p2 ≠ [] := harc _ _ harch2 ⟨p2, n2⟩ he2
        cases p2 with
        | nil => exact absurd rfl hne2
        | cons a l => exact append_cons_ne_self _ _ _
      exact FS.isDir_foldl_set entries _ _ hne fs
  unfold fetchAfterCreate
  dsimp only
  rcases hdl : download_url env url with ⟨r, ev⟩
  dsimp only
  cases r with
  | error e => rfl
  | ok buffer =>
    dsimp only
    cases sha with
    | some s =>
      dsimp only
      cases hchk : check_hash env.sha256Hex buffer s with
      | error e => rfl
      | ok u => exact hunp buffer
    | none => exact hunp buffer

theorem FS.resolvesTo_set_symlink (fs : FS) (p t : FsPath) :
    (fs.set p (FsNode.symlink t)).resolvesTo p t = true := by
  unfold FS.resolvesTo
  rw [FS.lookup_set, if_pos rfl]
  simp

theorem FS.resolvesTo_set_hardlink (fs : FS) (p t : FsPath) :
    (fs.set p (FsNode.hardlink t)).resolvesTo p t = true := by
  unfold FS.resolvesTo
  rw [FS.lookup_set, if_pos rfl]
  simp

theorem FS.resolvesTo_set_ne (fs : FS) (p : FsPath) (n : FsNode) (q t : FsPath)
    (h : q ≠ p) : (fs.set p n).resolvesTo q t = fs.resolvesTo q t := by
  unfold FS.resolvesTo
  rw [FS.lookup_set, if_neg h]

theorem FS.resolvesTo_removeFile_ne (fs : FS) (p q t : FsPath) (h : q ≠ p) :
    (fs.removeFile p).resolvesTo q t = fs.resolvesTo q t := by
  unfold FS.resolvesTo
  rw [FS.lookup_removeFile, if_neg h]

theorem publishShimUnix_block (env : Env) (useSoft : Bool) (exe p : FsPath)
    (ctx : String) (fs : FS) :
    shimBlock p (publishShimUnix env useSoft exe p ctx fs).2.2 := by
  unfold publishShimUnix shimBlock
  cases useSoft <;> rcases hs : env.symlinkOk exe p <;>
    rcases hh : env.hardlinkOk exe p <;>
    simp [hs, hh] <;>
    refine ⟨_, rfl, ?_⟩ <;>
    intro e he <;>
    fin_cases he <;>
    exact ⟨_, _, rfl⟩

theorem publishShimUnix_result (env : Env) (useSoft : Bool) (exe p : FsPath)
    (ctx : String) (fs : FS) :
    (publishShimUnix env useSoft exe p ctx fs).1 =
      if (if useSoft = true then env.symlinkOk exe p
          else env.hardlinkOk exe p || env.symlinkOk exe p) = true
      then Except.ok () else Except.error ctx := by
  unfold publishShimUnix
  cases useSoft <;> rcases hs : env.symlinkOk exe p <;>
    rcases hh : env.hardlinkOk exe p <;> simp [hs, hh]

theorem publishShimUnix_ok_resolves (env : Env) (useSoft : Bool) (exe p : FsPath)
    (ctx : String) (fs : FS)
    (h : (publishShimUnix env useSoft exe p ctx fs).1 = Except.ok ()) :
    (publishShimUnix env useSoft exe p ctx fs).2.1.resolvesTo p exe = true := by
  revert h
  unfold publishShimUnix
  cases useSoft <;> rcases hs : env.symlinkOk exe p <;>
    rcases hh : env.hardlinkOk exe p <;>
    simp [hs, hh, FS.resolvesTo_set_symlink, FS.resolvesTo_set_hardlink]

theorem publishShimUnix_frame (env : Env) (useSoft : Bool) (exe p : FsPath)
    (ctx : String) (fs : FS) (q t : FsPath) (h : q ≠ p) :
    (publishShimUnix env useSoft exe p ctx fs).2.1.resolvesTo q t =
      fs.resolvesTo q t := by
  unfold publishShimUnix
  cases useSoft <;> rcases hs : env.symlinkOk exe p <;>
    rcases hh : env.hardlinkOk exe p <;>
    simp [hs, hh, FS.resolvesTo_set_ne _ _ _ _ _ h, FS.resolvesTo_removeFile_ne _ _ _ _ h]

theorem publishShimWindows_block (env : Env) (exe p : FsPath)
    (ctx : String) (fs : FS) :
    shimBlock p (publishShimWindows env exe p ctx fs).2.2 := by
  unfold publishShimWindows shimBlock
  rcases hs : env.symlinkOk exe p <;> rcases hh : env.hardlinkOk exe p <;>
    simp [hs, hh] <;>
    refine ⟨_, rfl, ?_⟩ <;>
    intro e he <;>
    fin_cases he <;>
    exact ⟨_, _, rfl⟩

theorem publishShimWindows_result (env : Env) (exe p : FsPath)
    (ctx : String) (fs : FS) :
    (publishShimWindows env exe p ctx fs).1 =
      if (env.symlinkOk exe p || env.hardlinkOk exe p) = true
      then Except.ok () else Except.error ctx := by
  unfold publishShimWindows
  rcases hs : env.symlinkOk exe p <;> rcases hh : env.hardlinkOk exe p <;> simp [hs, hh]

theorem publishShimWindows_ok_resolves (env : Env) (exe p : FsPath)
    (ctx : String) (fs : FS)
    (h : (publishShimWindows env exe p ctx fs).1 = Except.ok ()) :
    (publishShimWindows env exe p ctx fs).2.1.resolvesTo p exe = true := by
  revert h
  unfold publishShimWindows
  rcases hs : env.symlinkOk exe p <;> rcases hh : env.hardlinkOk exe p <;>
    simp [hs, hh, FS.resolvesTo_set_symlink, FS.resolvesTo_set_hardlink]

theorem publishShimWindows_frame (env : Env) (exe p : FsPath)
    (ctx : String) (fs : FS) (q t : FsPath) (h : q ≠ p) :
    (publishShimWindows env exe p ctx fs).2.1.resolvesTo q t =
      fs.resolvesTo q t := by
  unfold publishShimWindows
  rcases hs : env.symlinkOk exe p <;> rcases hh : env.hardlinkOk exe p <;>
    simp [hs, hh, FS.resolvesTo_set_ne _ _ _ _ _ h, FS.resolvesTo_removeFile_ne _ _ _ _ h]

theorem shimPaths_ne (p : Platform) (shims : FsPath) :
    (shimPaths p shims).1 ≠ (shimPaths p shims).2 := by
  cases p <;>
    · unfold shimPaths
      intro h
      have h2 := List.append_cancel_left h
      simp at h2

theorem update_core_shims_windows (env : Env) (shims exe : FsPath) (fs : FS)
    (hplat : env.platform = Platform.windows) :
    update_core_shims env shims exe fs =
      (match (publishShimWindows env exe (shims ++ ["python.exe"])
          "tried to symlink python shim" fs).1 with
       | Except.error e =>
           (Except.error e,
            (publishShimWindows env exe (shims ++ ["python.exe"])
              "tried to symlink python shim" fs).2.1,
            (publishShimWindows env exe (shims ++ ["python.exe"])
              "tried to symlink python shim" fs).2.2)
       | Except.ok _ =>
           ((publishShimWindows env exe (shims ++ ["pythonw.exe"])
              "tried to symlink pythonw shim"
              (publishShimWindows env exe (shims ++ ["python.exe"])
                "tried to symlink python shim" fs).2.1).1,
            (publishShimWindows env exe (shims ++ ["pythonw.exe"])
              "tried to symlink pythonw shim"
              (publishShimWindows env exe (shims ++ ["python.exe"])
                "tried to symlink python shim" fs).2.1).2.1,
            (publishShimWindows env exe (shims ++ ["python.exe"])
              "tried to symlink python shim" fs).2.2 ++
            (publishShimWindows env exe (shims ++ ["pythonw.exe"])
              "tried to symlink pythonw shim"
              (publishShimWindows env exe (shims ++ ["python.exe"])
                "tried to symlink python shim" fs).2.1).2.2)) := by
  unfold update_core_shims
  rw [hplat]

theorem update_core_shims_linux (env : Env) (shims exe : FsPath) (fs : FS)
    (hplat : env.platform = Platform.linux) :
    update_core_shims env shims exe fs =
      (match (publishShimUnix env false exe (shims ++ ["python"])
          "tried to symlink python shim" fs).1 with
       | Except.error e =>
           (Except.error e,
            (publishShimUnix env false exe (shims ++ ["python"])
              "tried to symlink python shim" fs).2.1,
            (publishShimUnix env false exe (shims ++ ["python"])
              "tried to symlink python shim" fs).2.2)
       | Except.ok _ =>
           ((publishShimUnix env false exe (shims ++ ["python3"])
              "tried to symlink python3 shim"
              (publishShimUnix env false exe (shims ++ ["python"])
                "tried to symlink python shim" fs).2.1).1,
            (publishShimUnix env false exe (shims ++ ["python3"])
              "tried to symlink python3 shim"
              (publishShimUnix env false exe (shims ++ ["python"])
                "tried to symlink python shim" fs).2.1).2.1,
            (publishShimUnix env false exe (shims ++ ["python"])
              "tried to symlink python shim" fs).2.2 ++
            (publishShimUnix env false exe (shims ++ ["python3"])
              "tried to symlink python3 shim"
              (publishShimUnix env false exe (shims ++ ["python"])
                "tried to symlink python shim" fs).2.1).2.2)) := by
  unfold update_core_shims
  rw [hplat]
  exact rfl

theorem update_core_shims_macos (env : Env) (shims exe : FsPath) (fs : FS)
    (hplat : env.platform = Platform.macos) :
    update_core_shims env shims exe fs =
      (match (publishShimUnix env true exe (shims ++ ["python"])
          "tried to symlink python shim" fs).1 with
       | Except.error e =>
           (Except.error e,
            (publishShimUnix env true exe (shims ++ ["python"])
              "tried to symlink python shim" fs).2.1,
            (publishShimUnix env true exe (shims ++ ["python"])
              "tried to symlink python shim" fs).2.2)
       | Except.ok _ =>
           ((publishShimUnix env true exe (shims ++ ["python3"])
              "tried to symlink python3 shim"
              (publishShimUnix env true exe (shims ++ ["python"])
                "tried to symlink python shim" fs).2.1).1,
            (publishShimUnix env true exe (shims ++ ["python3"])
              "tried to symlink python3 shim"
              (publishShimUnix env true exe (shims ++ ["python"])
                "tried to symlink python shim" fs).2.1).2.1,
            (publishShimUnix env true exe (shims ++ ["python"])
              "tried to symlink python shim" fs).2.2 ++
            (publishShimUnix env true exe (shims ++ ["python3"])
              "tried to symlink python3 shim"
              (publishShimUnix env true exe (shims ++ ["python"])
                "tried to symlink python shim" fs).2.1).2.2)) := by
  unfold update_core_shims
  rw [hplat]
  exact rfl

theorem publishShimWindows_trace (env : Env) (exe p : FsPath) (ctx : String) (fs : FS) :
    (publishShimWindows env exe p ctx fs).2.2 =
      Event.removeFile p ::
        (if env.symlinkOk exe p then [Event.link LinkKind.soft p true]
         else Event.link LinkKind.soft p false ::
           (if env.hardlinkOk exe p then [Event.link LinkKind.hard p true]
            else [Event.link LinkKind.hard p false])) := by
  unfold publishShimWindows
  rcases hs : env.symlinkOk exe p <;> rcases hh : env.hardlinkOk exe p <;> simp [hs, hh]

theorem publishShimUnix_trace (env : Env) (useSoft : Bool) (exe p : FsPath)
    (ctx : String) (fs : FS) :
    (publishShimUnix env useSoft exe p ctx fs).2.2 =
      Event.removeFile p ::
        (if useSoft then
          (if env.symlinkOk exe p then [Event.link LinkKind.soft p true]
           else [Event.link LinkKind.soft p false])
         else if env.hardlinkOk exe p then [Event.link LinkKind.hard p true]
         else Event.link LinkKind.hard p false ::
           (if env.symlinkOk exe p then [Event.link LinkKind.soft p true]
            else [Event.link LinkKind.soft p false])) := by
  unfold publishShimUnix
  cases useSoft <;> rcases hs : env.symlinkOk exe p <;>
    rcases hh : env.hardlinkOk exe p <;> simp [hs, hh]

theorem update_core_shims_ok_windows (env : Env) (shims exe : FsPath) (fs : FS)
    (hplat : env.platform = Platform.windows) :
    ((update_core_shims env shims exe fs).1 = Except.ok ()) ↔
      ((env.symlinkOk exe (shims ++ ["python.exe"]) ||
          env.hardlinkOk exe (shims ++ ["python.exe"])) = true ∧
       (env.symlinkOk exe (shims ++ ["pythonw.exe"]) ||
          env.hardlinkOk exe (shims ++ ["pythonw.exe"])) = true) := by
  rw [update_core_shims_windows env shims exe fs hplat]
  rcases hb1 : env.symlinkOk exe (shims ++ ["python.exe"]) ||
      env.hardlinkOk exe (shims ++ ["python.exe"]) <;>
    rcases hb2 : env.symlinkOk exe (shims ++ ["pythonw.exe"]) ||
        env.hardlinkOk exe (shims ++ ["pythonw.exe"]) <;>
    simp [publishShimWindows_result, hb1, hb2]

theorem update_core_shims_ok_linux (env : Env) (shims exe : FsPath) (fs : FS)
    (hplat : env.platform = Platform.linux) :
    ((update_core_shims env shims exe fs).1 = Except.ok ()) ↔
      ((env.hardlinkOk exe (shims ++ ["python"]) ||
          env.symlinkOk exe (shims ++ ["python"])) = true ∧
       (env.hardlinkOk exe (shims ++ ["python3"]) ||
          env.symlinkOk exe (shims ++ ["python3"])) = true) := by
  rw [update_core_shims_linux env shims exe fs hplat]
  rcases hb1 : env.hardlinkOk exe (shims ++ ["python"]) ||
      env.symlinkOk exe (shims ++ ["python"]) <;>
    rcases hb2 : env.hardlinkOk exe (shims ++ ["python3"]) ||
        env.symlinkOk exe (shims ++ ["python3"]) <;>
    simp [publishShimUnix_result, hb1, hb2]

theorem update_core_shims_ok_macos (env : Env) (shims exe : FsPath) (fs : FS)
    (hplat : env.platform = Platform.macos) :
    ((update_core_shims env shims exe fs).1 = Except.ok ()) ↔
      (env.symlinkOk exe (shims ++ ["python"]) = true ∧
       env.symlinkOk exe (shims ++ ["python3"]) = true) := by
  rw [update_core_shims_macos env shims exe fs hplat]
  rcases hb1 : env.symlinkOk exe (shims ++ ["python"]) <;>
    rcases hb2 : env.symlinkOk exe (shims ++ ["python3"]) <;>
    simp [publishShimUnix_result, hb1, hb2]

theorem update_core_shims_result_const (env : Env) (shims exe : FsPath) (fs fs2 : FS) :
    (update_core_shims env shims exe fs).1 = (update_core_shims env shims exe fs2).1 := by
  cases hplat : env.platform
  case linux =>
    rw [update_core_shims_linux env shims exe fs hplat,
      update_core_shims_linux env shims exe fs2 hplat]
    rcases hb1 : env.hardlinkOk exe (shims ++ ["python"]) ||
        env.symlinkOk exe (shims ++ ["python"]) <;>
      simp [publishShimUnix_result, hb1]
  case macos =>
    rw [update_core_shims_macos env shims exe fs hplat,
      update_core_shims_macos env shims exe fs2 hplat]
    rcases hb1 : env.symlinkOk exe (shims ++ ["python"]) <;>
      simp [publishShimUnix_result, hb1]
  case windows =>
    rw [update_core_shims_windows env shims exe fs hplat,
      update_core_shims_windows env shims exe fs2 hplat]
    rcases hb1 : env.symlinkOk exe (shims ++ ["python.exe"]) ||
        env.hardlinkOk exe (shims ++ ["python.exe"]) <;>
      simp [publishShimWindows_result, hb1]

theorem update_core_shims_blocks (env : Env) (shims exe : FsPath) (fs : FS) :
    ∃ t1, shimBlock (shimPaths env.platform shims).1 t1 ∧
      ((∃ t2, shimBlock (shimPaths env.platform shims).2 t2 ∧
          (update_core_shims env shims exe fs).2.2 = t1 ++ t2) ∨
        (update_core_shims env shims exe fs).2.2 = t1) := by
  cases hplat : env.platform
  case linux =>
    rw [update_core_shims_linux env shims exe fs hplat]
    unfold shimPaths
    dsimp only
    cases hr1 : (publishShimUnix env false exe (shims ++ ["python"])
        "tried to symlink python shim" fs).1 with
    | error e =>
      exact ⟨_, publishShimUnix_block env false exe _ _ fs, Or.inr rfl⟩
    | ok u =>
      exact ⟨_, publishShimUnix_block env false exe _ _ fs,
        Or.inl ⟨_, publishShimUnix_block env false exe _ _ _, rfl⟩⟩
  case macos =>
    rw [update_core_shims_macos env shims exe fs hplat]
    unfold shimPaths
    dsimp only
    cases hr1 : (publishShimUnix env true exe (shims ++ ["python"])
        "tried to symlink python shim" fs).1 with
    | error e =>
      exact ⟨_, publishShimUnix_block env true exe _ _ fs, Or.inr rfl⟩
    | ok u =>
      exact ⟨_, publishShimUnix_block env true exe _ _ fs,
        Or.inl ⟨_, publishShimUnix_block env true exe _ _ _, rfl⟩⟩
  case windows =>
    rw [update_core_shims_windows env shims exe fs hplat]
    unfold shimPaths
    dsimp only
    cases hr1 : (publishShimWindows env exe (shims ++ ["python.exe"])
        "tried to symlink python shim" fs).1 with
    | error e =>
      exact ⟨_, publishShimWindows_block env exe _ _ fs, Or.inr rfl⟩
    | ok u =>
      exact ⟨_, publishShimWindows_block env exe _ _ fs,
        Or.inl ⟨_, publishShimWindows_block env exe _ _ _, rfl⟩⟩

theorem update_core_shims_ok_resolves (env : Env) (shims exe : FsPath) (fs : FS)
    (h : (update_core_shims env shims exe fs).1 = Except.ok ()) :
    (update_core_shims env shims exe fs).2.1.resolvesTo
        (shimPaths env.platform shims).1 exe = true ∧
    (update_core_shims env shims exe fs).2.1.resolvesTo
        (shimPaths env.platform shims).2 exe = true := by
  have hne := shimPaths_ne env.platform shims
  revert h
  cases hplat : env.platform
  case linux =>
    rw [hplat] at hne
    unfold shimPaths at hne
    rw [update_core_shims_linux env shims exe fs hplat]
    unfold shimPaths
    dsimp only
    cases hr1 : (publishShimUnix env false exe (shims ++ ["python"])
        "tried to symlink python shim" fs).1 with
    | error e => intro h; cases h
    | ok u =>
      intro h
      cases u
      constructor
      · rw [publishShimUnix_frame env false exe _ _ _ _ _ hne]
        exact publishShimUnix_ok_resolves env false exe _ _ fs hr1
      · exact publishShimUnix_ok_resolves env false exe _ _ _ h
  case macos =>
    rw [hplat] at hne
    unfold shimPaths at hne
    rw [update_core_shims_macos env shims exe fs hplat]
    unfold shimPaths
    dsimp only
    cases hr1 : (publishShimUnix env true exe (shims ++ ["python"])
        "tried to symlink python shim" fs).1 with
    | error e => intro h; cases h
    | ok u =>
      intro h
      cases u
      constructor
      · rw [publishShimUnix_frame env true exe _ _ _ _ _ hne]
        exact publishShimUnix_ok_resolves env true exe _ _ fs hr1
      · exact publishShimUnix_ok_resolves env true exe _ _ _ h
  case windows =>
    rw [hplat] at hne
    unfold shimPaths at hne
    rw [update_core_shims_windows env shims exe fs hplat]
    unfold shimPaths
    dsimp only
    cases hr1 : (publishShimWindows env exe (shims ++ ["python.exe"])
        "tried to symlink python shim" fs).1 with
    | error e => intro h; cases h
    | ok u =>
      intro h
      cases u
      constructor
      · rw [publishShimWindows_frame env exe _ _ _ _ _ hne]
        exact publishShimWindows_ok_resolves env exe _ _ fs hr1
      · exact publishShimWindows_ok_resolves env exe _ _ _ h

theorem FS.readToString_removeFile_ne (fs : FS) (p q : FsPath) (h : q ≠ p) :
    (fs.removeFile p).readToString q = fs.readToString q := by
  unfold FS.readToString
  rw [FS.lookup_removeFile, if_neg h]

theorem FS.readToString_removeTree_none (fs : FS) (p q : FsPath)
    (h : fs.readToString q = none) :
    (fs.removeTree p).readToString q = none := by
  unfold FS.readToString at h ⊢
  rw [FS.lookup_removeTree]
  by_cases hu : isUnder p q = true
  · rw [if_pos hu]
  · rw [if_neg hu]
    exact h

theorem isUnder_append_self (p q : FsPath) : isUnder p (p ++ q) = true := by
  induction p with
  | nil => rfl
  | cons a l ih => simp [isUnder, ih]

theorem canonical_ne_marker (env : Env) (v : PythonVersion) (rel : FsPath) :
    get_canonical_py_path env v ++ rel ≠ markerPath env := by
  unfold get_canonical_py_path markerPath selfVenvDir
  rw [List.append_assoc, List.append_assoc]
  exact append_ne_of_head_ne env.appDir _ _ (by decide)

theorem shims_ne_marker (env : Env) (name : String) :
    env.appDir ++ ["shims"] ++ [name] ≠ markerPath env := by
  unfold markerPath selfVenvDir
  rw [List.append_assoc, List.append_assoc]
  exact append_ne_of_head_ne env.appDir _ _ (by decide)

theorem fetchUnpack_marker (env : Env) (version : PythonVersion) (buffer : List Nat)
    (fs : FS) :
    (fetchUnpack env version buffer fs).2.1.readToString (markerPath env) =
      fs.readToString (markerPath env) := by
  unfold fetchUnpack unpack_archive
  cases harch : env.archive buffer with
  | none => rfl
  | some entries =>
    dsimp only
    exact FS.readToString_foldl_set entries _ _
      (fun e he => canonical_ne_marker env version e.1) fs

theorem fetchAfterCreate_marker (env : Env) (version : PythonVersion) (url : String)
    (sha : Option String) (fs : FS) :
    (fetchAfterCreate env version url sha fs).2.1.readToString (markerPath env) =
      fs.readToString (markerPath env) := by
  unfold fetchAfterCreate
  dsimp only
  rcases hdl : download_url env url with ⟨r, ev⟩
  dsimp only
  cases r with
  | error e => rfl
  | ok buffer =>
    dsimp only
    cases sha with
    | some s =>
      dsimp only
      cases hchk : check_hash env.sha256Hex buffer s with
      | error e => rfl
      | ok u => exact fetchUnpack_marker env version buffer fs
    | none => exact fetchUnpack_marker env version buffer fs

theorem fetchResolve_marker (env : Env) (req : PythonVersionRequest) (fs : FS) :
    (fetchResolve env req fs).2.1.readToString (markerPath env) =
      fs.readToString (markerPath env) := by
  unfold fetchResolve
  cases hres : env.downloads req with
  | none => rfl
  | some trip =>
    obtain ⟨version, url, sha⟩ := trip
    dsimp only
    split
    · rfl
    · unfold fetchDownloadUnpack
      dsimp only
      rw [fetchAfterCreate_marker, FS.readToString_createDirAll]

theorem fetch_marker (env : Env) (req : PythonVersionRequest) (fs : FS) :
    (fetch env req fs).2.1.readToString (markerPath env) =
      fs.readToString (markerPath env) := by
  unfold fetch
  cases htv : env.tryFrom req with
  | some version =>
    dsimp only
    split
    · rfl
    · exact fetchResolve_marker env req fs
  | none => exact fetchResolve_marker env req fs

theorem publishShimUnix_marker (env : Env) (useSoft : Bool) (exe p : FsPath)
    (ctx : String) (fs : FS) (q : FsPath) (h : q ≠ p) :
    (publishShimUnix env useSoft exe p ctx fs).2.1.readToString q =
      fs.readToString q := by
  unfold publishShimUnix
  cases useSoft <;> rcases hs : env.symlinkOk exe p <;>
    rcases hh : env.hardlinkOk exe p <;>
    simp [hs, hh, FS.readToString_set_ne _ _ _ _ h, FS.readToString_removeFile_ne _ _ _ h]

theorem publishShimWindows_marker (env : Env) (exe p : FsPath)
    (ctx : String) (fs : FS) (q : FsPath) (h : q ≠ p) :
    (publishShimWindows env exe p ctx fs).2.1.readToString q =
      fs.readToString q := by
  unfold publishShimWindows
  rcases hs : env.symlinkOk exe p <;> rcases hh : env.hardlinkOk exe p <;>
    simp [hs, hh, FS.readToString_set_ne _ _ _ _ h, FS.readToString_removeFile_ne _ _ _ h]

theorem update_core_shims_marker (env : Env) (shims exe : FsPath) (fs : FS)
    (h1 : markerPath env ≠ shims ++ ["python"])
    (h2 : markerPath env ≠ shims ++ ["python3"])
    (h3 : markerPath env ≠ shims ++ ["python.exe"])
    (h4 : markerPath env ≠ shims ++ ["pythonw.exe"]) :
    (update_core_shims env shims exe fs).2.1.readToString (markerPath env) =
      fs.readToString (markerPath env) := by
  cases hplat : env.platform
  case linux =>
    rw [update_core_shims_linux env shims exe fs hplat]
    cases hr1 : (publishShimUnix env false exe (shims ++ ["python"])
        "tried to symlink python shim" fs).1 with
    | error e => exact publishShimUnix_marker env false exe _ _ fs _ h1
    | ok u =>
      rw [publishShimUnix_marker env false exe _ _ _ _ h2,
        publishShimUnix_marker env false exe _ _ _ _ h1]
  case macos =>
    rw [update_core_shims_macos env shims exe fs hplat]
    cases hr1 : (publishShimUnix env true exe (shims ++ ["python"])
        "tried to symlink python shim" fs).1 with
    | error e => exact publishShimUnix_marker env true exe _ _ fs _ h1
    | ok u =>
      rw [publishShimUnix_marker env true exe _ _ _ _ h2,
        publishShimUnix_marker env true exe _ _ _ _ h1]
  case windows =>
    rw [update_core_shims_windows env shims exe fs hplat]
    cases hr1 : (publishShimWindows env exe (shims ++ ["python.exe"])
        "tried to symlink python shim" fs).1 with
    | error e => exact publishShimWindows_marker env exe _ _ fs _ h3
    | ok u =>
      rw [publishShimWindows_marker env exe _ _ _ _ h4,
        publishShimWindows_marker env exe _ _ _ _ h3]

theorem do_update_marker (env : Env) (fs : FS) :
    (do_update env fs).2.1.readToString (markerPath env) =
      fs.readToString (markerPath env) := by
  have h1 := (shims_ne_marker env "python").symm
  have h2 := (shims_ne_marker env "python3").symm
  have h3 := (shims_ne_marker env "python.exe").symm
  have h4 := (shims_ne_marker env "pythonw.exe").symm
  unfold do_update
  cases env.pipUpgradeStatus with
  | none => rfl
  | some b1 =>
    cases b1 with
    | false => rfl
    | true =>
      dsimp only
      cases env.pipInstallStatus with
      | none => rfl
      | some b2 =>
        cases b2 with
        | false => rfl
        | true =>
          dsimp only
          rw [update_core_shims_marker env _ _ _ h1 h2 h3 h4]
          split
          · rfl
          · exact FS.readToString_createDirAll fs _ _

theorem download_url_no_write (env : Env) (url : String) (p : FsPath) :
    Event.writeFile p ∉ (download_url env url).2 := by
  unfold download_url
  split
  · simp
  · cases hn : env.net url with
    | error e =>
      rcases hp : env.httpsProxy with _ | u <;> simp [hp]
    | ok pair =>
      obtain ⟨code, bytes⟩ := pair
      dsimp only
      split <;> rcases hp : env.httpsProxy with _ | u <;> simp [hp]

theorem fetchUnpack_no_write (env : Env) (version : PythonVersion)
    (buffer : List Nat) (fs : FS) (p : FsPath) :
    Event.writeFile p ∉ (fetchUnpack env version buffer fs).2.2 := by
  unfold fetchUnpack unpack_archive
  cases harch : env.archive buffer with
  | none => simp
  | some entries =>
    dsimp only
    intro h
    rcases List.mem_append.mp h with h | h
    · simp at h
    · exact absurd (mem_echoIf h) (by simp)

theorem fetchAfterCreate_no_write (env : Env) (version : PythonVersion)
    (url : String) (sha : Option String) (fs : FS) (p : FsPath) :
    Event.writeFile p ∉ (fetchAfterCreate env version url sha fs).2.2 := by
  unfold fetchAfterCreate
  dsimp only
  rcases hdl : download_url env url with ⟨r, ev⟩
  have hev : Event.writeFile p ∉ ev := by
    have h2 := download_url_no_write env url p
    rw [hdl] at h2
    exact h2
  dsimp only
  cases r with
  | error e =>
    intro h
    rcases List.mem_append.mp h with h | h
    · rcases List.mem_append.mp h with h | h <;> exact absurd (mem_echoIf h) (by simp)
    · exact hev h
  | ok buffer =>
    dsimp only
    cases sha with
    | some s =>
      dsimp only
      cases hchk : check_hash env.sha256Hex buffer s with
      | error e =>
        intro h
        rcases List.mem_append.mp h with h | h
        · rcases List.mem_append.mp h with h | h
          · rcases List.mem_append.mp h with h | h <;>
              exact absurd (mem_echoIf h) (by simp)
          · exact hev h
        · exact absurd (mem_echoIf h) (by simp)
      | ok u =>
        intro h
        rcases List.mem_append.mp h with h | h
        · rcases List.mem_append.mp h with h | h
          · rcases List.mem_append.mp h with h | h
            · rcases List.mem_append.mp h with h | h <;>
                exact absurd (mem_echoIf h) (by simp)
            · exact hev h
          · exact absurd (mem_echoIf h) (by simp)
        · exact fetchUnpack_no_write env version buffer fs p h
    | none =>
      intro h
      rcases List.mem_append.mp h with h | h
      · rcases List.mem_append.mp h with h | h
        · rcases List.mem_append.mp h with h | h
          · rcases List.mem_append.mp h with h | h <;>
              exact absurd (mem_echoIf h) (by simp)
          · exact hev h
        · exact absurd (mem_echoIf h) (by simp)
      · exact fetchUnpack_no_write env version buffer fs p h

theorem fetchDownloadUnpack_no_write (env : Env) (version : PythonVersion)
    (url : String) (sha : Option String) (fs : FS) (p : FsPath) :
    Event.writeFile p ∉ (fetchDownloadUnpack env version url sha fs).2.2 := by
  rw [fetchDownloadUnpack_trace]
  intro h
  rcases List.mem_cons.mp h with h | h
  · cases h
  · exact fetchAfterCreate_no_write env version url sha _ p h

theorem fetchResolve_no_write (env : Env) (req : PythonVersionRequest) (fs : FS)
    (p : FsPath) :
    Event.writeFile p ∉ (fetchResolve env req fs).2.2 := by
  unfold fetchResolve
  cases hres : env.downloads req with
  | none => simp
  | some trip =>
    obtain ⟨version, url, sha⟩ := trip
    dsimp only
    split
    · intro h
      rcases List.mem_append.mp h with h | h <;> exact absurd (mem_echoIf h) (by simp)
    · intro h
      rcases List.mem_append.mp h with h | h
      · exact absurd (mem_echoIf h) (by simp)
      · exact fetchDownloadUnpack_no_write env version url sha fs p h

theorem fetch_no_write (env : Env) (req : PythonVersionRequest) (fs : FS)
    (p : FsPath) :
    Event.writeFile p ∉ (fetch env req fs).2.2 := by
  unfold fetch
  cases htv : env.tryFrom req with
  | some version =>
    dsimp only
    split
    · intro h
      exact absurd (mem_echoIf h) (by simp)
    · exact fetchResolve_no_write env req fs p
  | none => exact fetchResolve_no_write env req fs p

theorem validate_no_write (env : Env) (p : FsPath) :
    Event.writeFile p ∉ (validate_shared_libraries env).2 := by
  unfold validate_shared_libraries
  cases env.lddMissing with
  | none => simp
  | some missing =>
    dsimp only
    split
    · simp
    · intro h
      rcases List.mem_append.mp h with h | h
      · simp at h
      · rw [List.mem_map] at h
        obtain ⟨l, _, hl⟩ := h
        cases hl

theorem publishShimUnix_no_write (env : Env) (useSoft : Bool) (exe p2 : FsPath)
    (ctx : String) (fs : FS) (q : FsPath) :
    Event.writeFile q ∉ (publishShimUnix env useSoft exe p2 ctx fs).2.2 := by
  rcases hs : env.symlinkOk exe p2 <;> rcases hh : env.hardlinkOk exe p2 <;>
    cases useSoft <;> simp [publishShimUnix_trace, hs, hh]

theorem publishShimWindows_no_write (env : Env) (exe p2 : FsPath)
    (ctx : String) (fs : FS) (q : FsPath) :
    Event.writeFile q ∉ (publishShimWindows env exe p2 ctx fs).2.2 := by
  rcases hs : env.symlinkOk exe p2 <;> rcases hh : env.hardlinkOk exe p2 <;>
    simp [publishShimWindows_trace, hs, hh]

theorem update_core_shims_no_write (env : Env) (shims exe : FsPath) (fs : FS)
    (q : FsPath) :
    Event.writeFile q ∉ (update_core_shims env shims exe fs).2.2 := by
  cases hplat : env.platform
  case linux =>
    rw [update_core_shims_linux env shims exe fs hplat]
    cases hr1 : (publishShimUnix env false exe (shims ++ ["python"])
        "tried to symlink python shim" fs).1 with
    | error e => exact publishShimUnix_no_write env false exe _ _ fs q
    | ok u =>
      intro h
      rcases List.mem_append.mp h with h | h
      · exact publishShimUnix_no_write env false exe _ _ fs q h
      · exact publishShimUnix_no_write env false exe _ _ _ q h
  case macos =>
    rw [update_core_shims_macos env shims exe fs hplat]
    cases hr1 : (publishShimUnix env true exe (shims ++ ["python"])
        "tried to symlink python shim" fs).1 with
    | error e => exact publishShimUnix_no_write env true exe _ _ fs q
    | ok u =>
      intro h
      rcases List.mem_append.mp h with h | h
      · exact publishShimUnix_no_write env true exe _ _ fs q h
      · exact publishShimUnix_no_write env true exe _ _ _ q h
  case windows =>
    rw [update_core_shims_windows env shims exe fs hplat]
    cases hr1 : (publishShimWindows env exe (shims ++ ["python.exe"])
        "tried to symlink python shim" fs).1 with
    | error e => exact publishShimWindows_no_write env exe _ _ fs q
    | ok u =>
      intro h
      rcases List.mem_append.mp h with h | h
      · exact publishShimWindows_no_write env exe _ _ fs q h
      · exact publishShimWindows_no_write env exe _ _ _ q h

theorem do_update_no_write (env : Env) (fs : FS) (q : FsPath) :
    Event.writeFile q ∉ (do_update env fs).2.2 := by
  unfold do_update
  cases env.pipUpgradeStatus with
  | none =>
    intro h
    rcases List.mem_append.mp h with h | h
    · exact absurd (mem_echoIf h) (by simp)
    · simp at h
  | some b1 =>
    cases b1 with
    | false =>
      intro h
      rcases List.mem_append.mp h with h | h
      · exact absurd (mem_echoIf h) (by simp)
      · simp at h
    | true =>
      dsimp only
      cases env.pipInstallStatus with
      | none =>
        intro h
        rcases List.mem_append.mp h with h | h
        · rcases List.mem_append.mp h with h | h
          · exact absurd (mem_echoIf h) (by simp)
          · simp at h
        · rcases List.mem_append.mp h with h | h
          · exact absurd (mem_echoIf h) (by simp)
          · simp at h
      | some b2 =>
        cases b2 with
        | false =>
          intro h
          rcases List.mem_append.mp h with h | h
          · rcases List.mem_append.mp h with h | h
            · exact absurd (mem_echoIf h) (by simp)
            · simp at h
          · rcases List.mem_append.mp h with h | h
            · exact absurd (mem_echoIf h) (by simp)
            · simp at h
        | true =>
          dsimp only
          intro h
          rcases List.mem_append.mp h with h | h
          · rcases List.mem_append.mp h with h | h
            · rcases List.mem_append.mp h with h | h
              · rcases List.mem_append.mp h with h | h
                · exact absurd (mem_echoIf h) (by simp)
                · simp at h
              · rcases List.mem_append.mp h with h | h
                · exact absurd (mem_echoIf h) (by simp)
                · simp at h
            · split at h
              · simp at h
              · simp at h
          · exact update_core_shims_no_write env _ _ _ q h

theorem ensure_inner_spec (env : Env) (w : World)
    (hm : w.fs.readToString (markerPath env) = none) :
    (∀ e, (ensure_self_venv_inner env w).1 = Except.error e →
        (∀ p, Event.writeFile p ∉ (ensure_self_venv_inner env w).2.2) ∧
        (ensure_self_venv_inner env w).2.1.fs.readToString (markerPath env) = none ∧
        (ensure_self_venv_inner env w).2.1.forcedToUpdate = w.forcedToUpdate) ∧
    (∀ pth, (ensure_self_venv_inner env w).1 = Except.ok pth →
        pth = selfVenvDir env ∧
        (ensure_self_venv_inner env w).2.2.getLast? =
          some (Event.writeFile (markerPath env))) := by
  have hfm := fetch_marker env SELF_PYTHON_VERSION w.fs
  have hfw := fetch_no_write env SELF_PYTHON_VERSION w.fs
  unfold ensure_self_venv_inner
  dsimp only
  rcases hf : fetch env SELF_PYTHON_VERSION w.fs with ⟨r1, fs1, ev1⟩
  rw [hf] at hfm
  have hev1 : ∀ p, Event.writeFile p ∉ ev1 := by
    intro p
    have h2 := hfw p
    rw [hf] at h2
    exact h2
  dsimp only at hfm ⊢
  rw [hm] at hfm
  cases r1 with
  | error e =>
    constructor
    · intro e2 he2
      refine ⟨?_, hfm, rfl⟩
      intro p h
      rcases List.mem_append.mp h with h | h
      · exact absurd (mem_echoIf h) (by simp)
      · exact hev1 p h
    · intro pth hpth
      cases hpth
  | ok version =>
    dsimp only
    rcases hv : (if (env.platform == Platform.linux) = true
        then validate_shared_libraries env else (Except.ok (), [])) with ⟨r2, ev2⟩
    have hev2 : ∀ p, Event.writeFile p ∉ ev2 := by
      intro p
      have h2 : Event.writeFile p ∉ (if (env.platform == Platform.linux) = true
          then validate_shared_libraries env else (Except.ok (), [])).2 := by
        split
        · exact validate_no_write env p
        · simp
      rw [hv] at h2
      exact h2
    dsimp only
    cases r2 with
    | error e =>
      constructor
      · intro e2 he2
        refine ⟨?_, hfm, rfl⟩
        intro p h
        rcases List.mem_append.mp h with h | h
        · rcases List.mem_append.mp h with h | h
          · exact absurd (mem_echoIf h) (by simp)
          · exact hev1 p h
        · exact hev2 p h
      · intro pth hpth
        cases hpth
    | ok u =>
      dsimp only
      cases hvs : env.venvStatus with
      | none =>
        constructor
        · intro e2 he2
          refine ⟨?_, hfm, rfl⟩
          intro p h
          rcases List.mem_append.mp h with h | h
          · rcases List.mem_append.mp h with h | h
            · rcases List.mem_append.mp h with h | h
              · exact absurd (mem_echoIf h) (by simp)
              · exact hev1 p h
            · exact hev2 p h
          · simp at h
        · intro pth hpth
          cases hpth
      | some b =>
        cases b with
        | false =>
          constructor
          · intro e2 he2
            refine ⟨?_, hfm, rfl⟩
            intro p h
            rcases List.mem_append.mp h with h | h
            · rcases List.mem_append.mp h with h | h
              · rcases List.mem_append.mp h with h | h
                · exact absurd (mem_echoIf h) (by simp)
                · exact hev1 p h
              · exact hev2 p h
            · simp at h
          · intro pth hpth
            cases hpth
        | true =>
          dsimp only
          have hdm := do_update_marker env (fs1.createDirAll (selfVenvDir env))
          have hdw := do_update_no_write env (fs1.createDirAll (selfVenvDir env))
          rcases hu : do_update env (fs1.createDirAll (selfVenvDir env)) with ⟨r3, fs3, ev3⟩
          rw [hu] at hdm
          have hev3 : ∀ p, Event.writeFile p ∉ ev3 := by
            intro p
            have h2 := hdw p
            rw [hu] at h2
            exact h2
          dsimp only at hdm ⊢
          rw [FS.readToString_createDirAll, hfm] at hdm
          cases r3 with
          | error e =>
            constructor
            · intro e2 he2
              refine ⟨?_, hdm, rfl⟩
              intro p h
              rcases List.mem_append.mp h with h | h
              · rcases List.mem_append.mp h with h | h
                · rcases List.mem_append.mp h with h | h
                  · rcases List.mem_append.mp h with h | h
                    · exact absurd (mem_echoIf h) (by simp)
                    · exact hev1 p h
                  · exact hev2 p h
                · simp at h
              · exact hev3 p h
            · intro pth hpth
              cases hpth
          | ok u2 =>
            constructor
            · intro e2 he2
              cases he2
            · intro pth hpth
              cases hpth
              refine ⟨rfl, ?_⟩
              simp only [← List.cons_append, ← List.append_assoc]
              exact List.getLast?_concat _

theorem ensure_outer_glue (env : Env) (w2 : World) (pre : List Event)
    (hm : w2.fs.readToString (markerPath env) = none)
    (hflag2 : w2.forcedToUpdate = false)
    (hpre : Event.writeFile (markerPath env) ∉ pre) :
    (∀ e, (ensure_self_venv_inner env w2).1 = Except.error e →
        Event.writeFile (markerPath env) ∉
          pre ++ (ensure_self_venv_inner env w2).2.2 ∧
        is_up_to_date env (ensure_self_venv_inner env w2).2.1 = false) ∧
    (Event.writeFile (markerPath env) ∈
        pre ++ (ensure_self_venv_inner env w2).2.2 →
      (ensure_self_venv_inner env w2).1 = Except.ok (selfVenvDir env) ∧
      (pre ++ (ensure_self_venv_inner env w2).2.2).getLast? =
        some (Event.writeFile (markerPath env))) := by
  obtain ⟨herr, hok⟩ := ensure_inner_spec env w2 hm
  constructor
  · intro e he
    obtain ⟨hnw, hmark, hfl⟩ := herr e he
    constructor
    · intro h
      rcases List.mem_append.mp h with h | h
      · exact hpre h
      · exact hnw _ h
    · unfold is_up_to_date
      rw [hmark, hfl, hflag2]
      rfl
  · intro hmem
    cases hr : (ensure_self_venv_inner env w2).1 with
    | error e =>
      obtain ⟨hnw, _, _⟩ := herr e hr
      rcases List.mem_append.mp hmem with h | h
      · exact absurd h hpre
      · exact absurd h (hnw _)
    | ok pth =>
      obtain ⟨hp, hlast⟩ := hok pth hr
      subst hp
      refine ⟨rfl, ?_⟩
      have hne : (ensure_self_venv_inner env w2).2.2 ≠ [] := by
        intro h0
        rw [h0] at hlast
        simp at hlast
      rw [List.getLast?_append_of_ne_nil pre hne]
      exact hlast

/-
Claim theorems.
-/

/-- C10: `is_up_to_date` is total and never errors: it returns `true`
exactly when the in-process forced-update flag is set or the marker file is
readable and its entire content parses as an integer equal to the running
tool version; a missing file, an unreadable file, or unparsable content
(including surrounding whitespace) yields `false` rather than a failure. -/
theorem C10_is_up_to_date_total (env : Env) (w : World) :
    (is_up_to_date env w = true ↔
      (w.forcedToUpdate = true ∨
        ∃ c, w.fs.readToString (markerPath env) = some c ∧
          parseU64 c = some SELF_VERSION)) ∧
    (∀ c : String, (∃ ch ∈ c.data, ch = ' ' ∨ ch = '\n') → parseU64 c = none) := by
  constructor
  · unfold is_up_to_date
    cases hr : w.fs.readToString (markerPath env) with
    | none => simp
    | some c =>
      simp only [Bool.or_eq_true, beq_iff_eq, Option.some.injEq]
      constructor
      · rintro (h | h)
        · exact Or.inr ⟨c, rfl, h⟩
        · exact Or.inl h
      · rintro (h | ⟨c2, hc2, hp⟩)
        · exact Or.inr h
        · cases hc2
          exact Or.inl hp
  · rintro c ⟨ch, hm, hws⟩
    have hplus : ch ≠ '+' := by
      rcases hws with h | h <;> subst h <;> decide
    have hdig : ch.isDigit = false := by
      rcases hws with h | h <;> subst h <;> decide
    unfold parseU64
    by_cases hh : c.data.head? = some '+'
    · have hm2 : ch ∈ c.data.tail := by
        cases hd : c.data with
        | nil => rw [hd] at hm; simp at hm
        | cons c0 rest =>
          rw [hd] at hh hm
          simp at hh
          subst hh
          rcases List.mem_cons.mp hm with h | h
          · exact absurd h hplus
          · exact h
      have hne : c.data.tail.isEmpty = false := by
        cases ht : c.data.tail with
        | nil => rw [ht] at hm2; simp at hm2
        | cons a b => rfl
      have hall : c.data.tail.all Char.isDigit = false := by
        cases hac : c.data.tail.all Char.isDigit with
        | false => rfl
        | true => rw [List.all_eq_true] at hac; rw [hac ch hm2] at hdig; cases hdig
      simp [hh, hne, hall]
    · have hne : c.data.isEmpty = false := by
        cases hd : c.data with
        | nil => rw [hd] at hm; simp at hm
        | cons a b => rfl
      have hall : c.data.all Char.isDigit = false := by
        cases hac : c.data.all Char.isDigit with
        | false => rfl
        | true => rw [List.all_eq_true] at hac; rw [hac ch hm] at hdig; cases hdig
      simp [hh, hne, hall]

/-- Witness for C10 at concrete inputs: the current marker makes the gate
report up to date, and content with surrounding whitespace is rejected. -/
theorem C10_is_up_to_date_total_witness :
    is_up_to_date baseEnv wReady = true ∧ parseU64 "3\n" = none :=
  ⟨(C10_is_up_to_date_total baseEnv wReady).1.mpr
      (Or.inr ⟨"3", by decide, by decide⟩),
   (C10_is_up_to_date_total baseEnv wReady).2 "3\n" ⟨'\n', by decide, Or.inr rfl⟩⟩

/-- C7: a url that does not start with the secure scheme is refused with an
error before any network action: no proxy is applied, no transfer is
started, no bytes are returned; conversely any run whose trace reached the
transport layer had a secure url. -/
theorem C7_insecure_rejected (env : Env) (url : String) :
    (isSecureUrl url = false →
      download_url env url = (Except.error "Refusing insecure download", [])) ∧
    ((∃ u, Event.netFetch u ∈ (download_url env url).2 ∨
        Event.proxySet u ∈ (download_url env url).2) →
      isSecureUrl url = true) := by
  constructor
  · intro h
    unfold download_url
    simp [h]
  · rintro ⟨u, hu⟩
    cases hv : isSecureUrl url with
    | true => rfl
    | false =>
      unfold download_url at hu
      simp [hv] at hu

/-- Witness for C7: a plain-http url is refused with no events. -/
theorem C7_insecure_rejected_witness :
    download_url baseEnv "http://insecure.example/x.tar.gz" =
      (Except.error "Refusing insecure download", []) :=
  (C7_insecure_rejected baseEnv "http://insecure.example/x.tar.gz").1 (by decide)

/-- C8: when the self venv directory exists and the gate is current (the
marker equals the running tool version, or the in-process forced-update
flag is set), `ensure_self_venv` returns the venv path immediately: the
world is unchanged and the trace is empty, so no network fetch and no
filesystem mutation happens on a repeated invocation. -/
theorem C8_idempotent (env : Env) (w : World)
    (hdir : w.fs.isDir (selfVenvDir env) = true)
    (hup : is_up_to_date env w = true) :
    ensure_self_venv env w = (Except.ok (selfVenvDir env), w, []) := by
  unfold ensure_self_venv
  simp [hdir, hup]

/-- Witness for C8: a built environment with a current marker is returned
as-is. -/
theorem C8_idempotent_witness :
    ensure_self_venv baseEnv wReady = (Except.ok (selfVenvDir baseEnv), wReady, []) :=
  C8_idempotent baseEnv wReady (by decide) (by decide)

/-- C3: under a resolvable request (with the fully-qualified fast path
agreeing with the table) and on a wellformed filesystem (a file implies its
directory), `fetch` skips the download (returns the version with the
filesystem untouched and a status-line-only trace) exactly when the install
directory exists and the expected interpreter binary inside it exists; a
directory without the binary is never a cache hit. -/
theorem C3_cache_hit_iff (env : Env) (req : PythonVersionRequest) (fs : FS)
    (version : PythonVersion) (url : String) (sha : Option String)
    (hres : env.downloads req = some (version, url, sha))
    (htf : ∀ v, env.tryFrom req = some v → v = version)
    (hwf : fs.isFile (get_toolchain_python_bin env version) = true →
      fs.isDir (get_canonical_py_path env version) = true) :
    ((fetch env req fs).1 = Except.ok version ∧ (fetch env req fs).2.1 = fs ∧
        skipOnly (fetch env req fs).2.2 = true) ↔
      (fs.isDir (get_canonical_py_path env version) = true ∧
        fs.isFile (get_toolchain_python_bin env version) = true) := by
  cases hbin : fs.isFile (get_toolchain_python_bin env version) with
  | true =>
    have hdir := hwf hbin
    constructor
    · intro _
      exact ⟨hdir, rfl⟩
    · intro _
      unfold fetch
      cases htv : env.tryFrom req with
      | some v =>
        have hv := htf v htv
        subst hv
        simp [hbin, skipOnly_echoIf]
      | none =>
        unfold fetchResolve
        rw [hres]
        simp [hbin, hdir, skipOnly_append, skipOnly_echoIf]
  | false =>
    constructor
    · rintro ⟨h1, h2, h3⟩
      exfalso
      revert h3
      unfold fetch
      cases htv : env.tryFrom req with
      | some v =>
        have hv := htf v htv
        subst hv
        simp only [hbin, Bool.false_eq_true, if_false]
        unfold fetchResolve
        rw [hres]
        simp only [hbin, Bool.and_false]
        rw [if_neg (by simp)]
        rw [skipOnly_append, fetchDownloadUnpack_trace, skipOnly_cons_createDir]
        simp
      | none =>
        unfold fetchResolve
        rw [hres]
        simp only [hbin, Bool.and_false]
        rw [if_neg (by simp)]
        rw [skipOnly_append, fetchDownloadUnpack_trace, skipOnly_cons_createDir]
        simp
    · rintro ⟨hdir, hbin2⟩
      simp [hbin] at hbin2

/-- Witness for C3: on a filesystem where the version is fully installed,
`fetch` is a pure cache hit. -/
theorem C3_cache_hit_iff_witness :
    (fetch baseEnv req0 fsInstalled).1 = Except.ok v0 ∧
    (fetch baseEnv req0 fsInstalled).2.1 = fsInstalled ∧
    skipOnly (fetch baseEnv req0 fsInstalled).2.2 = true :=
  (C3_cache_hit_iff baseEnv req0 fsInstalled v0 url0 (some "digest-good")
      (by decide) (fun v h => nomatch h) (fun _ => by decide)).mpr
    ⟨by decide, by decide⟩

/-- C1: when the expected digest is present and the digest of the fetched
bytes differs, `check_hash` fails with an error carrying both digests, the
whole `fetch` fails, `unpack_archive` is never invoked, and no binary path
that was not already a file becomes one; when the digests are equal
`check_hash` succeeds silently (it is a pure check with no output). -/
theorem C1_integrity (env : Env) (req : PythonVersionRequest) (fs : FS)
    (version : PythonVersion) (url sha : String) (code : Nat) (bytes : List Nat)
    (hres : env.downloads req = some (version, url, some sha))
    (htf : ∀ v, env.tryFrom req = some v → v = version)
    (hmiss : fs.isFile (get_toolchain_python_bin env version) = false)
    (hurl : isSecureUrl url = true)
    (hnet : env.net url = Except.ok (code, bytes))
    (hcode : 200 ≤ code ∧ code < 300)
    (hbad : env.sha256Hex bytes ≠ sha) :
    check_hash env.sha256Hex bytes sha =
        Except.error ("hash mismatch: expected " ++ sha ++ " got " ++ env.sha256Hex bytes) ∧
    (fetch env req fs).1 =
        Except.error ("hash check of " ++ url ++ " failed: " ++
          ("hash mismatch: expected " ++ sha ++ " got " ++ env.sha256Hex bytes)) ∧
    (∀ d, Event.unpack d ∉ (fetch env req fs).2.2) ∧
    (∀ p, fs.isFile p = false → (fetch env req fs).2.1.isFile p = false) ∧
    (∀ content, env.sha256Hex content = sha →
      check_hash env.sha256Hex content sha = Except.ok ()) := by
  have hchk : check_hash env.sha256Hex bytes sha =
      Except.error ("hash mismatch: expected " ++ sha ++ " got " ++ env.sha256Hex bytes) := by
    unfold check_hash
    rw [if_pos hbad]
  have hdl : download_url env url = (Except.ok bytes,
      (match env.httpsProxy with
       | some p => [Event.proxySet p]
       | none => []) ++ [Event.netFetch url]) := by
    unfold download_url
    rw [if_neg (by simp [hurl]), hnet]
    simp only []
    rw [if_pos hcode]
  have hbody : fetchResolve env req fs =
      (Except.error ("hash check of " ++ url ++ " failed: " ++
          ("hash mismatch: expected " ++ sha ++ " got " ++ env.sha256Hex bytes)),
       fs.createDirAll (get_canonical_py_path env version),
       echoIf (env.output == CommandOutput.Verbose)
           ("target dir: " ++ String.intercalate "/" (get_canonical_py_path env version))
         ++ Event.createDir (get_canonical_py_path env version) ::
            (echoIf (env.output == CommandOutput.Verbose) ("download url: " ++ url)
              ++ echoIf (env.output != CommandOutput.Quiet)
                  ("Downloading " ++ version.pathKey)
              ++ (((match env.httpsProxy with
                    | some p => [Event.proxySet p]
                    | none => []) ++ [Event.netFetch url])
                ++ echoIf (env.output != CommandOutput.Quiet) "Checking hash"))) := by
    unfold fetchResolve
    rw [hres]
    dsimp only
    rw [if_neg (by simp [hmiss])]
    unfold fetchDownloadUnpack fetchAfterCreate
    dsimp only
    rw [hdl]
    dsimp only
    simp only [hchk]
    simp [List.append_assoc]
  have hfetch : fetch env req fs = fetchResolve env req fs := by
    unfold fetch
    cases htv : env.tryFrom req with
    | some v =>
      have hv := htf v htv
      subst hv
      dsimp only
      rw [if_neg (by simp [hmiss])]
    | none => rfl
  refine ⟨hchk, ?_, ?_, ?_, ?_⟩
  · rw [hfetch, hbody]
  · intro d
    rw [hfetch, hbody]
    cases ho : env.output <;> cases hp : env.httpsProxy <;>
      simp [echoIf, ho, hp]
  · intro p hp
    rw [hfetch, hbody]
    simp only [FS.isFile_createDirAll]
    exact hp
  · intro content hgood
    unfold check_hash
    rw [if_neg (by simp [hgood])]

/-- Witness for C1: a network that serves bytes with the wrong digest makes
`fetch` fail with the mismatch error, with no unpack event and no binary. -/
theorem C1_integrity_witness :
    (fetch envBadDigest req0 emptyFS).1 =
        Except.error ("hash check of " ++ url0 ++ " failed: " ++
          ("hash mismatch: expected " ++ "digest-good" ++ " got "
            ++ envBadDigest.sha256Hex [9, 9])) ∧
    (∀ d, Event.unpack d ∉ (fetch envBadDigest req0 emptyFS).2.2) ∧
    (fetch envBadDigest req0 emptyFS).2.1.isFile
        (get_toolchain_python_bin envBadDigest v0) = false := by
  have h := C1_integrity envBadDigest req0 emptyFS v0 url0 "digest-good" 200 [9, 9]
    (by decide) (fun v hv => nomatch hv) (by decide) (by decide) (by decide)
    (by constructor <;> decide) (by decide)
  exact ⟨h.2.1, h.2.2.1, h.2.2.2.1 _ (by decide)⟩

/-- Counterexample for C4 as stated: on an empty filesystem, a run whose
download fails still leaves a newly created install directory behind, so
the destination directory is not created only immediately before
extraction, and a failed download does leave a new install directory. -/
theorem C4_counterexample :
    emptyFS.isDir (get_canonical_py_path envNetFail v0) = false ∧
    (fetch envNetFail req0 emptyFS).1 =
      Except.error ("download of " ++ url0 ++ " failed: " ++ "timeout") ∧
    (fetch envNetFail req0 emptyFS).2.1.isDir
      (get_canonical_py_path envNetFail v0) = true := by
  refine ⟨by decide, by decide, by decide⟩

/-- C4 amended: on a cache miss the destination directory (with its
parents) is created by this call right after the cache check and before
the download and the hash verification: every event before the directory
creation is a status line, and the directory exists in the final state of
every outcome, including a failed download or a failed hash check (the
binary completion signal, not the directory, distinguishes a finished
install). -/
theorem C4_amended_dir_created_early (env : Env) (req : PythonVersionRequest)
    (fs : FS) (version : PythonVersion) (url : String) (sha : Option String)
    (hres : env.downloads req = some (version, url, sha))
    (htf : ∀ v, env.tryFrom req = some v → v = version)
    (hmiss : fs.isFile (get_toolchain_python_bin env version) = false)
    (htd : fs.lookup (get_canonical_py_path env version) = none ∨
      fs.lookup (get_canonical_py_path env version) = some FsNode.dir)
    (harc : ∀ b entries, env.archive b = some entries → ∀ e ∈ entries, e.1 ≠ []) :
    (∃ pre post, (fetch env req fs).2.2 =
        pre ++ Event.createDir (get_canonical_py_path env version) :: post ∧
        ∀ e ∈ pre, Event.isPrint e = true) ∧
    (fetch env req fs).2.1.isDir (get_canonical_py_path env version) = true := by
  rw [fetch_eq_resolve_of_miss env req fs version htf hmiss,
    fetchResolve_miss env req fs version url sha hres hmiss]
  have hdirne : get_canonical_py_path env version ≠ [] := by
    unfold get_canonical_py_path
    intro h
    have h2 := congrArg List.length h
    simp [List.length_append] at h2
  have hcreated : (fs.createDirAll (get_canonical_py_path env version)).isDir
      (get_canonical_py_path env version) = true :=
    FS.isDir_createDirAll_self fs _ hdirne htd
  constructor
  · refine ⟨echoIf (env.output == CommandOutput.Verbose)
        ("target dir: " ++ String.intercalate "/" (get_canonical_py_path env version)),
      (fetchAfterCreate env version url sha
        (fs.createDirAll (get_canonical_py_path env version))).2.2, ?_, ?_⟩
    · rw [fetchDownloadUnpack_trace]
    · intro e he
      rw [mem_echoIf he]
      rfl
  · unfold fetchDownloadUnpack
    dsimp only
    rw [fetchAfterCreate_isDir env version url sha _ harc]
    exact hcreated

/-- Witness for C4 amended: on the failing-transport run the first event is
the directory creation and the directory exists afterwards. -/
theorem C4_amended_dir_created_early_witness :
    (∃ pre post, (fetch envNetFail req0 emptyFS).2.2 =
        pre ++ Event.createDir (get_canonical_py_path envNetFail v0) :: post ∧
        ∀ e ∈ pre, Event.isPrint e = true) ∧
    (fetch envNetFail req0 emptyFS).2.1.isDir
      (get_canonical_py_path envNetFail v0) = true :=
  C4_amended_dir_created_early envNetFail req0 emptyFS v0 url0 (some "digest-good")
    (by decide) (fun v h => nomatch h) (by decide) (Or.inl (by decide))
    (fun b entries h => by
      revert h
      unfold envNetFail baseEnv
      dsimp only
      split
      · intro h
        cases h
        intro e he
        simp at he
        rw [he]
        decide
      · intro h
        cases h)

/-- Counterexample for C9 as stated: in a quiet run with no expected
digest, installation proceeds and succeeds but the whole trace is
`[createDir, netFetch, unpack]` - the verification skip is not recorded in
any user-visible output, contradicting that the skip is reported in every
such run. -/
theorem C9_counterexample :
    (fetch envQuietNoDigest req0 emptyFS).1 = Except.ok v0 ∧
    (fetch envQuietNoDigest req0 emptyFS).2.2 =
      [Event.createDir (get_canonical_py_path envQuietNoDigest v0),
       Event.netFetch url0,
       Event.unpack (get_canonical_py_path envQuietNoDigest v0)] := by
  refine ⟨by decide, by decide⟩

/-- C9 amended: a download descriptor with no expected digest still allows
installation to proceed (the archive is unpacked and `fetch` succeeds); the
hash is never reported as checked, and whenever output is not quiet the
skip is explicitly reported; in quiet mode all output, including the skip
notice, is suppressed. -/
theorem C9_amended_skip_reported (env : Env) (req : PythonVersionRequest)
    (fs : FS) (version : PythonVersion) (url : String) (code : Nat)
    (bytes : List Nat) (entries : List (FsPath × FsNode))
    (hres : env.downloads req = some (version, url, none))
    (htf : ∀ v, env.tryFrom req = some v → v = version)
    (hmiss : fs.isFile (get_toolchain_python_bin env version) = false)
    (hurl : isSecureUrl url = true)
    (hnet : env.net url = Except.ok (code, bytes))
    (hcode : 200 ≤ code ∧ code < 300)
    (harch : env.archive bytes = some entries) :
    (fetch env req fs).1 = Except.ok version ∧
    Event.unpack (get_canonical_py_path env version) ∈ (fetch env req fs).2.2 ∧
    (env.output ≠ CommandOutput.Quiet →
      Event.print "hash check skipped (no hash available)" ∈ (fetch env req fs).2.2) ∧
    Event.print "Checking hash" ∉ (fetch env req fs).2.2 := by
  have hdl : download_url env url = (Except.ok bytes,
      (match env.httpsProxy with
       | some p => [Event.proxySet p]
       | none => []) ++ [Event.netFetch url]) := by
    unfold download_url
    rw [if_neg (by simp [hurl]), hnet]
    simp only []
    rw [if_pos hcode]
  have hunpEq : ∀ fs2 : FS, fetchUnpack env version bytes fs2 =
      (Except.ok version,
       entries.foldl (fun acc e => acc.set (get_canonical_py_path env version ++ e.1) e.2) fs2,
       [Event.unpack (get_canonical_py_path env version)] ++
         echoIf (env.output != CommandOutput.Quiet)
           ("success: Downloaded " ++ version.pathKey)) := by
    intro fs2
    unfold fetchUnpack unpack_archive
    rw [harch]
  have hAC : ∀ fs2 : FS, fetchAfterCreate env version url none fs2 =
      (Except.ok version,
       entries.foldl (fun acc e => acc.set (get_canonical_py_path env version ++ e.1) e.2) fs2,
       echoIf (env.output == CommandOutput.Verbose) ("download url: " ++ url) ++
         echoIf (env.output != CommandOutput.Quiet) ("Downloading " ++ version.pathKey) ++
         ((match env.httpsProxy with
           | some p => [Event.proxySet p]
           | none => []) ++ [Event.netFetch url]) ++
         echoIf (env.output != CommandOutput.Quiet) "hash check skipped (no hash available)" ++
         ([Event.unpack (get_canonical_py_path env version)] ++
           echoIf (env.output != CommandOutput.Quiet)
             ("success: Downloaded " ++ version.pathKey))) := by
    intro fs2
    unfold fetchAfterCreate
    dsimp only
    rw [hdl]
    dsimp only
    rw [hunpEq fs2]
  have hrun : fetch env req fs =
      ((fetchDownloadUnpack env version url none fs).1,
       (fetchDownloadUnpack env version url none fs).2.1,
       echoIf (env.output == CommandOutput.Verbose)
           ("target dir: " ++ String.intercalate "/" (get_canonical_py_path env version))
         ++ (fetchDownloadUnpack env version url none fs).2.2) := by
    rw [fetch_eq_resolve_of_miss env req fs version htf hmiss,
      fetchResolve_miss env req fs version url none hres hmiss]
  have htrace : (fetchDownloadUnpack env version url none fs).2.2 =
      Event.createDir (get_canonical_py_path env version) ::
        (fetchAfterCreate env version url none
          (fs.createDirAll (get_canonical_py_path env version))).2.2 :=
    fetchDownloadUnpack_trace env version url none fs
  have hCh1 : ∀ s : String, "Checking hash" ≠ "target dir: " ++ s :=
    fun s => Ne.symm (append_head_ne "target dir: " s "Checking hash" (by decide) (by decide))
  have hCh2 : ∀ s : String, "Checking hash" ≠ "download url: " ++ s :=
    fun s => Ne.symm (append_head_ne "download url: " s "Checking hash" (by decide) (by decide))
  have hCh3 : ∀ s : String, "Checking hash" ≠ "Downloading " ++ s :=
    fun s => Ne.symm (append_head_ne "Downloading " s "Checking hash" (by decide) (by decide))
  have hCh4 : ∀ s : String, "Checking hash" ≠ "success: Downloaded " ++ s :=
    fun s => Ne.symm (append_head_ne "success: Downloaded " s "Checking hash" (by decide) (by decide))
  refine ⟨?_, ?_, ?_, ?_⟩
  · rw [hrun]
    unfold fetchDownloadUnpack
    dsimp only
    rw [hAC]
  · rw [hrun]
    dsimp only
    rw [htrace, hAC]
    simp [List.mem_append]
  · intro hq
    rw [hrun]
    dsimp only
    rw [htrace, hAC]
    have hnq : (env.output != CommandOutput.Quiet) = true := by
      cases ho : env.output with
      | Quiet => exact absurd ho hq
      | Normal => rfl
      | Verbose => rfl
    simp [List.mem_append, echoIf, hnq]
  · rw [hrun]
    dsimp only
    rw [htrace, hAC]
    intro hmem
    rcases hp : env.httpsProxy with _ | p <;>
      rw [hp] at hmem <;>
      cases ho : env.output <;>
      rw [ho] at hmem <;>
      simp [echoIf, List.mem_append, hCh1, hCh2, hCh3, hCh4] at hmem

/-- Witness for C9 amended: in a normal-verbosity run with no digest the
skip notice is printed, the archive is unpacked, and no hash check is
reported. -/
theorem C9_amended_skip_reported_witness :
    (fetch envNoDigestNormal req0 emptyFS).1 = Except.ok v0 ∧
    Event.unpack (get_canonical_py_path envNoDigestNormal v0) ∈
      (fetch envNoDigestNormal req0 emptyFS).2.2 ∧
    Event.print "hash check skipped (no hash available)" ∈
      (fetch envNoDigestNormal req0 emptyFS).2.2 ∧
    Event.print "Checking hash" ∉ (fetch envNoDigestNormal req0 emptyFS).2.2 := by
  have h := C9_amended_skip_reported envNoDigestNormal req0 emptyFS v0 url0 200
    goodBytes [(binRel, FsNode.binfile)] (by decide) (fun v hv => nomatch hv)
    (by decide) (by decide) (by decide) (by constructor <;> decide) (by decide)
  exact ⟨h.1, h.2.1, h.2.2.1 (by decide), h.2.2.2⟩

/-- Counterexample for C5 as stated: on non-linux unix, when symlink
creation fails, the operation fails even though the hard-link strategy
would succeed (the hard link is never attempted, refuting that every
strategy in a fallback order is tried); and on linux, with both primitives
available, the first attempted link is a hard link, not a symbolic link
(refuting the symlink-first order). -/
theorem C5_counterexample :
    (update_core_shims envMacNoSym ["shims"] ["rye"] emptyFS).1 =
        Except.error "tried to symlink python shim" ∧
    envMacNoSym.hardlinkOk ["rye"] (["shims"] ++ ["python"]) = true ∧
    (update_core_shims baseEnv ["shims"] ["rye"] emptyFS).2.2 =
      [Event.removeFile ["shims", "python"],
       Event.link LinkKind.hard ["shims", "python"] true,
       Event.removeFile ["shims", "python3"],
       Event.link LinkKind.hard ["shims", "python3"] true] := by
  refine ⟨by decide, by decide, by decide⟩

/-- C5 amended: the attempt order is platform-specific.  On windows each
shim is published by trying a symlink first and a hard link only if the
symlink fails; on linux by trying a hard link first and a symlink only if
the hard link fails; on other unix platforms only a symlink is ever
attempted.  The whole operation succeeds exactly when, for each of the two
shims, some strategy attempted on that platform succeeds. -/
theorem C5_amended_link_order (env : Env) (shims exe : FsPath) (fs : FS) :
    (∀ p ctx fs2, (publishShimWindows env exe p ctx fs2).2.2 =
      Event.removeFile p ::
        (if env.symlinkOk exe p then [Event.link LinkKind.soft p true]
         else Event.link LinkKind.soft p false ::
           (if env.hardlinkOk exe p then [Event.link LinkKind.hard p true]
            else [Event.link LinkKind.hard p false]))) ∧
    (∀ p ctx fs2, (publishShimUnix env false exe p ctx fs2).2.2 =
      Event.removeFile p ::
        (if env.hardlinkOk exe p then [Event.link LinkKind.hard p true]
         else Event.link LinkKind.hard p false ::
           (if env.symlinkOk exe p then [Event.link LinkKind.soft p true]
            else [Event.link LinkKind.soft p false]))) ∧
    (∀ p ctx fs2, (publishShimUnix env true exe p ctx fs2).2.2 =
      Event.removeFile p ::
        (if env.symlinkOk exe p then [Event.link LinkKind.soft p true]
         else [Event.link LinkKind.soft p false])) ∧
    (env.platform = Platform.windows →
      (((update_core_shims env shims exe fs).1 = Except.ok ()) ↔
        ((env.symlinkOk exe (shims ++ ["python.exe"]) ||
            env.hardlinkOk exe (shims ++ ["python.exe"])) = true ∧
         (env.symlinkOk exe (shims ++ ["pythonw.exe"]) ||
            env.hardlinkOk exe (shims ++ ["pythonw.exe"])) = true))) ∧
    (env.platform = Platform.linux →
      (((update_core_shims env shims exe fs).1 = Except.ok ()) ↔
        ((env.hardlinkOk exe (shims ++ ["python"]) ||
            env.symlinkOk exe (shims ++ ["python"])) = true ∧
         (env.hardlinkOk exe (shims ++ ["python3"]) ||
            env.symlinkOk exe (shims ++ ["python3"])) = true))) ∧
    (env.platform = Platform.macos →
      (((update_core_shims env shims exe fs).1 = Except.ok ()) ↔
        (env.symlinkOk exe (shims ++ ["python"]) = true ∧
         env.symlinkOk exe (shims ++ ["python3"]) = true))) := by
  refine ⟨?_, ?_, ?_, ?_, ?_, ?_⟩
  · intro p ctx fs2
    exact publishShimWindows_trace env exe p ctx fs2
  · intro p ctx fs2
    rw [publishShimUnix_trace]
    simp
  · intro p ctx fs2
    rw [publishShimUnix_trace]
    simp
  · intro hplat
    exact update_core_shims_ok_windows env shims exe fs hplat
  · intro hplat
    exact update_core_shims_ok_linux env shims exe fs hplat
  · intro hplat
    exact update_core_shims_ok_macos env shims exe fs hplat

/-- Witness for C5 amended: on windows with failing symlinks but working
hard links, publication succeeds via the hard-link fallback. -/
theorem C5_amended_link_order_witness :
    (update_core_shims envWinNoSym ["shims"] ["rye"] emptyFS).1 = Except.ok () :=
  ((C5_amended_link_order envWinNoSym ["shims"] ["rye"] emptyFS).2.2.2.1 rfl).mpr
    ⟨by decide, by decide⟩

/-- C6: publishing the core shims removes any pre-existing file at each
published path before attempting any link for it (the per-shim trace block
starts with the removal and contains only link attempts for that same
path); after success every published shim resolves, as a symlink or hard
link, to the managing executable; and publishing twice in a row succeeds
again with every entry still resolving to the managing executable and no
stale target remaining. -/
theorem C6_shim_invariant (env : Env) (shims exe : FsPath) (fs : FS) :
    (∃ t1, shimBlock (shimPaths env.platform shims).1 t1 ∧
      ((∃ t2, shimBlock (shimPaths env.platform shims).2 t2 ∧
          (update_core_shims env shims exe fs).2.2 = t1 ++ t2) ∨
        (update_core_shims env shims exe fs).2.2 = t1)) ∧
    ((update_core_shims env shims exe fs).1 = Except.ok () →
      (update_core_shims env shims exe fs).2.1.resolvesTo
          (shimPaths env.platform shims).1 exe = true ∧
      (update_core_shims env shims exe fs).2.1.resolvesTo
          (shimPaths env.platform shims).2 exe = true) ∧
    ((update_core_shims env shims exe fs).1 = Except.ok () →
      (update_core_shims env shims exe
          (update_core_shims env shims exe fs).2.1).1 = Except.ok () ∧
      (update_core_shims env shims exe
          (update_core_shims env shims exe fs).2.1).2.1.resolvesTo
          (shimPaths env.platform shims).1 exe = true ∧
      (update_core_shims env shims exe
          (update_core_shims env shims exe fs).2.1).2.1.resolvesTo
          (shimPaths env.platform shims).2 exe = true) := by
  refine ⟨update_core_shims_blocks env shims exe fs,
    update_core_shims_ok_resolves env shims exe fs, ?_⟩
  intro h
  have h2 : (update_core_shims env shims exe
      (update_core_shims env shims exe fs).2.1).1 = Except.ok () := by
    rw [update_core_shims_result_const env shims exe _ fs]
    exact h
  exact ⟨h2, (update_core_shims_ok_resolves env shims exe _ h2).1,
    (update_core_shims_ok_resolves env shims exe _ h2).2⟩

/-- Witness for C6: on the working linux environment the first published
shim resolves to the managing executable and a second publication still
succeeds. -/
theorem C6_shim_invariant_witness :
    (update_core_shims baseEnv ["shims"] ["rye"] emptyFS).2.1.resolvesTo
        (shimPaths baseEnv.platform ["shims"]).1 ["rye"] = true ∧
    (update_core_shims baseEnv ["shims"] ["rye"]
        (update_core_shims baseEnv ["shims"] ["rye"] emptyFS).2.1).1 =
      Except.ok () := by
  have h := C6_shim_invariant baseEnv ["shims"] ["rye"] emptyFS
  exact ⟨(h.2.1 (by decide)).1, (h.2.2 (by decide)).1⟩

/-- C2: the tool-version marker is written only after every downstream step
of the bootstrap has succeeded and is the final event of the run; on any
failure the run contains no marker write and the gate stays stale (with the
in-process flag initially clear), so a later invocation re-runs the full
sequence. -/
theorem C2_marker_written_last (env : Env) (w : World)
    (hflag : w.forcedToUpdate = false)
    (hwf : w.fs.isDir (selfVenvDir env) = false →
      w.fs.readToString (markerPath env) = none) :
    (∀ e, (ensure_self_venv env w).1 = Except.error e →
        Event.writeFile (markerPath env) ∉ (ensure_self_venv env w).2.2 ∧
        is_up_to_date env (ensure_self_venv env w).2.1 = false) ∧
    (Event.writeFile (markerPath env) ∈ (ensure_self_venv env w).2.2 →
        (ensure_self_venv env w).1 = Except.ok (selfVenvDir env) ∧
        (ensure_self_venv env w).2.2.getLast? =
          some (Event.writeFile (markerPath env))) := by
  unfold ensure_self_venv
  dsimp only
  by_cases hdir : w.fs.isDir (selfVenvDir env) = true
  · rw [if_pos hdir]
    by_cases hup : is_up_to_date env w = true
    · rw [if_pos hup]
      constructor
      · intro e he
        cases he
      · intro hmem
        simp at hmem
    · rw [if_neg hup]
      dsimp only
      have hu1 : isUnder (selfVenvDir env) (markerPath env) = true :=
        isUnder_append_self _ _
      have hm1 : (w.fs.removeTree (selfVenvDir env)).readToString
          (markerPath env) = none := by
        unfold FS.readToString
        rw [FS.lookup_removeTree, if_pos hu1]
      by_cases hpt : (w.fs.removeTree (selfVenvDir env)).isDir
          (env.appDir ++ ["pip-tools"]) = true
      · simp only [hpt, if_true]
        have hm2 : ((w.fs.removeTree (selfVenvDir env)).removeTree
            (env.appDir ++ ["pip-tools"])).readToString (markerPath env) = none :=
          FS.readToString_removeTree_none _ _ _ hm1
        have hglue := ensure_outer_glue env
          { w with fs := FS.removeTree (FS.removeTree w.fs (selfVenvDir env)) (env.appDir ++ ["pip-tools"]) }
          (echoIf (env.output != CommandOutput.Quiet)
              "detected outdated rye internals. Refreshing"
            ++ [Event.removeTree (selfVenvDir env)]
            ++ [Event.removeTree (env.appDir ++ ["pip-tools"])])
          hm2 hflag ?_
        · exact hglue
        · intro h
          rcases List.mem_append.mp h with h | h
          · rcases List.mem_append.mp h with h | h
            · exact absurd (mem_echoIf h) (by simp)
            · simp at h
          · simp at h
      · simp only [hpt, if_false]
        have hglue := ensure_outer_glue env
          { w with fs := w.fs.removeTree (selfVenvDir env) }
          (echoIf (env.output != CommandOutput.Quiet)
              "detected outdated rye internals. Refreshing"
            ++ [Event.removeTree (selfVenvDir env)]
            ++ [])
          hm1 hflag ?_
        · exact hglue
        · intro h
          rcases List.mem_append.mp h with h | h
          · rcases List.mem_append.mp h with h | h
            · exact absurd (mem_echoIf h) (by simp)
            · simp at h
          · simp at h
  · rw [if_neg hdir]
    have hdir2 : w.fs.isDir (selfVenvDir env) = false := by
      cases h2 : w.fs.isDir (selfVenvDir env) with
      | false => rfl
      | true => exact absurd h2 hdir
    have hglue := ensure_outer_glue env w [] (hwf hdir2) hflag (by simp)
    exact hglue

/-- Witness for C2: with a failing pip install step the bootstrap fails,
no marker write happens, and the gate stays stale. -/
theorem C2_marker_written_last_witness :
    Event.writeFile (markerPath envPipFail) ∉ (ensure_self_venv envPipFail w0).2.2 ∧
    is_up_to_date envPipFail (ensure_self_venv envPipFail w0).2.1 = false := by
  have h := C2_marker_written_last envPipFail w0 (by decide) (fun _ => by decide)
  exact h.1 "failed to initialize virtualenv (install dependencies)" (by decide)

end Rye
